import Mathlib

/-!
Verification development for the `claude-code-comfyui-nodes` package.

The Python sources are shallowly embedded: strings are Lean `String`s
(manipulated through their `List Char` data), Python `set`s of tool names are
duplicate-free `List String`s, Python dicts are association lists in insertion
order, `json` values are an inductive type with an executable parser and
serializer modelling the fragment of `json.loads` / `json.dumps` that the
nodes exercise (objects, arrays, strings, integers, booleans, null), and
filesystem / subprocess effects are supplied by explicit oracle records.
Python exceptions are modelled with `Except`.
-/

/-! ## Python string primitives -/

/-- The characters stripped by Python `str.strip()` (ASCII whitespace). -/
def isPySpace (c : Char) : Bool :=
  c = ' ' || c = '\t' || c = '\n' || c = '\r' || c = '\x0b' || c = '\x0c'

/-- Python `str.strip()` on raw character lists. -/
def pyStripL (l : List Char) : List Char :=
  ((l.dropWhile isPySpace).reverse.dropWhile isPySpace).reverse

/-- Python `str.strip()`. -/
def pyStrip (s : String) : String :=
  String.mk (pyStripL s.data)

/-- Python `str.lstrip(chars)`: drop every leading character from the set. -/
def pyLstripSet (cs : List Char) (s : String) : String :=
  String.mk (s.data.dropWhile (fun c => cs.contains c))

/-- Python `str.lower()` (ASCII). -/
def pyLower (s : String) : String :=
  String.mk (s.data.map Char.toLower)

/-- Python `str(b)` for a boolean `b`. -/
def pyBoolStr (b : Bool) : String :=
  if b then "True" else "False"

/-- Lexicographic (code-point) order on character lists, as used by Python
string comparison and hence by `sorted` on strings. -/
def lexLe : List Char → List Char → Bool
  | [], _ => true
  | _ :: _, [] => false
  | a :: as, b :: bs => if a = b then lexLe as bs else decide (a < b)

/-- Python `<=` on strings. -/
def pyStrLe (a b : String) : Prop := lexLe a.data b.data = true

instance : DecidableRel pyStrLe := fun a b =>
  inferInstanceAs (Decidable (lexLe a.data b.data = true))

theorem lexLe_total (a b : List Char) : lexLe a b = true ∨ lexLe b a = true := by
  induction a generalizing b with
  | nil => left; rfl
  | cons x as ih =>
    cases b with
    | nil => right; rfl
    | cons y bs =>
      by_cases hxy : x = y
      · subst hxy
        rcases ih bs with h | h
        · left; simpa [lexLe] using h
        · right; simpa [lexLe] using h
      · rcases lt_trichotomy x y with h | h | h
        · left; simp [lexLe, hxy, h]
        · exact absurd h hxy
        · right; simp [lexLe, Ne.symm hxy, h]

theorem lexLe_trans {a b c : List Char} (h₁ : lexLe a b = true)
    (h₂ : lexLe b c = true) : lexLe a c = true := by
  induction a generalizing b c with
  | nil => rfl
  | cons x as ih =>
    cases b with
    | nil => simp [lexLe] at h₁
    | cons y bs =>
      cases c with
      | nil => simp [lexLe] at h₂
      | cons z cs =>
        by_cases hxy : x = y <;> by_cases hyz : y = z
        · subst hxy; subst hyz
          simp only [lexLe, if_pos rfl] at h₁ h₂ ⊢
          exact ih h₁ h₂
        · subst hxy
          simpa [lexLe, hyz] using h₂
        · subst hyz
          simpa [lexLe, hxy] using h₁
        · simp only [lexLe, if_neg hxy, decide_eq_true_eq] at h₁
          simp only [lexLe, if_neg hyz, decide_eq_true_eq] at h₂
          have hxz : x < z := lt_trans h₁ h₂
          simp [lexLe, ne_of_lt hxz, hxz]

theorem lexLe_antisymm {a b : List Char} (h₁ : lexLe a b = true)
    (h₂ : lexLe b a = true) : a = b := by
  induction a generalizing b with
  | nil =>
    cases b with
    | nil => rfl
    | cons y bs => simp [lexLe] at h₂
  | cons x as ih =>
    cases b with
    | nil => simp [lexLe] at h₁
    | cons y bs =>
      by_cases hxy : x = y
      · subst hxy
        simp only [lexLe, if_pos rfl] at h₁ h₂
        rw [ih h₁ h₂]
      · simp only [lexLe, if_neg hxy, decide_eq_true_eq] at h₁
        simp only [lexLe, if_neg (Ne.symm hxy), decide_eq_true_eq] at h₂
        exact absurd (lt_trans h₁ h₂) (lt_irrefl x)

instance : IsTotal String pyStrLe := ⟨fun a b => lexLe_total a.data b.data⟩

instance : IsTrans String pyStrLe := ⟨fun _ _ _ => lexLe_trans⟩

instance : IsAntisymm String pyStrLe :=
  ⟨fun a b h₁ h₂ => by
    cases a; cases b
    exact congrArg String.mk (lexLe_antisymm h₁ h₂)⟩

/-- Python `s.split(",")` followed by `.strip()` and dropping empty entries,
the idiom `[t.strip() for t in s.split(",") if t.strip()]` used throughout the
package for comma-separated tool lists. -/
def splitClean (s : String) : List String :=
  (((s.data.splitOn ',').map (fun l => String.mk (pyStripL l))).filter (· ≠ ""))

/-- Python `",".join l`. -/
def joinComma (l : List String) : String :=
  String.mk (List.intercalate [','] (l.map String.data))

/-- Worker for `splitOnSub`, structurally recursive on a fuel argument so that
the kernel can evaluate it. -/
def splitOnSubGo (sep : List Char) : Nat → List Char → List (List Char)
  | 0, s => [s]
  | fuel + 1, s =>
    if sep.isPrefixOf s ∧ sep ≠ [] then
      [] :: splitOnSubGo sep fuel (s.drop sep.length)
    else
      match s with
      | [] => [[]]
      | c :: rest =>
        match splitOnSubGo sep fuel rest with
        | [] => [[c]]
        | r :: rs => (c :: r) :: rs

/-- Python `s.split(sep)` for a nonempty separator string: split at each
leftmost non-overlapping occurrence of `sep`. -/
def splitOnSub (sep s : List Char) : List (List Char) :=
  splitOnSubGo sep (s.length + 1) s

/-- Python `sep in s` (substring containment test). -/
def containsSub (sep : List Char) : List Char → Bool
  | [] => sep.isEmpty
  | c :: rest => sep.isPrefixOf (c :: rest) || containsSub sep rest

/-- Python `s.replace(pat, rep)` for a nonempty pattern. -/
def pyReplace (s pat rep : String) : String :=
  String.mk (List.intercalate rep.data (splitOnSub pat.data s.data))

/-! ## Tool Permission Builder (`claude_code_tools.py`) -/

/-- The fixed preset table `ClaudeCodeTools.PRESETS`; `PRESETS.get(preset, "")`
returns the empty string for unknown keys. -/
def PRESETS (preset : String) : String :=
  if preset = "all" then "Read,Write,Edit,MultiEdit,Bash,Grep,Glob,LS,WebFetch,WebSearch"
  else if preset = "read_only" then "Read,Grep,Glob,LS"
  else if preset = "file_ops" then "Read,Write,Edit,MultiEdit,Grep,Glob,LS"
  else if preset = "code_dev" then "Read,Write,Edit,MultiEdit,Bash,Grep,Glob,LS"
  else if preset = "web" then "WebFetch,WebSearch"
  else if preset = "minimal" then "Read,Write"
  else if preset = "none" then ""
  else ""

/-- A Python `set` of strings is modelled as a duplicate-free list; `set(l)`. -/
def pySetOf (l : List String) : List String := l.dedup

/-- Python `set.add`. -/
def pySetAdd (s : List String) (x : String) : List String :=
  if x ∈ s then s else s ++ [x]

/-- Python `set.update`, iterating over the given elements. -/
def pySetAddAll (s : List String) (xs : List String) : List String :=
  xs.foldl pySetAdd s

/-- Python `set.difference_update`. -/
def pySetDiff (s : List String) (xs : List String) : List String :=
  s.filter (fun t => decide (t ∉ xs))

/-- The elements added by the boolean capability toggles when `preset` is
`"none"` (lines 81-93 of `claude_code_tools.py`), in program order. -/
def toggleToolAdds (file_read file_write file_edit bash search web : Bool) :
    List String :=
  (if file_read then ["Read", "LS"] else []) ++
  (if file_write then ["Write"] else []) ++
  (if file_edit then ["Edit", "MultiEdit"] else []) ++
  (if bash then ["Bash"] else []) ++
  (if search then ["Grep", "Glob"] else []) ++
  (if web then ["WebFetch", "WebSearch"] else [])

/-- Model of `ClaudeCodeTools.configure_tools`, up to the sorted tool list
`tools_list = sorted(list(tools_set))`. -/
def configure_tools_list (preset custom_tools remove_tools : String)
    (file_read file_write file_edit bash search web : Bool) : List String :=
  let tools_set := pySetOf (splitClean (PRESETS preset))
  let tools_set :=
    if preset = "none" then
      pySetAddAll tools_set (toggleToolAdds file_read file_write file_edit bash search web)
    else tools_set
  let tools_set :=
    if custom_tools ≠ "" then pySetAddAll tools_set (pySetOf (splitClean custom_tools))
    else tools_set
  let tools_set :=
    if remove_tools ≠ "" then pySetDiff tools_set (pySetOf (splitClean remove_tools))
    else tools_set
  List.insertionSort pyStrLe tools_set

/-- Model of `ClaudeCodeTools.configure_tools`: returns
`(tools_config, tools_str, skip_permissions)` where
`tools_config = f"TOOLS|skip_permissions:SKIP"`. -/
def configure_tools (preset custom_tools remove_tools : String)
    (file_read file_write file_edit bash search web skip_permissions : Bool) :
    String × String × Bool :=
  let tools_str := joinComma (configure_tools_list preset custom_tools remove_tools
    file_read file_write file_edit bash search web)
  (tools_str ++ "|skip_permissions:" ++ pyBoolStr skip_permissions,
   tools_str, skip_permissions)

theorem splitClean_empty : splitClean "" = [] := rfl

theorem mem_pySetAdd {s : List String} {x t : String} :
    t ∈ pySetAdd s x ↔ t ∈ s ∨ t = x := by
  unfold pySetAdd
  split
  · next h => exact ⟨fun ht => Or.inl ht, fun h2 => h2.elim id (fun e => e ▸ h)⟩
  · simp [List.mem_append]

theorem mem_pySetAddAll {s xs : List String} {t : String} :
    t ∈ pySetAddAll s xs ↔ t ∈ s ∨ t ∈ xs := by
  induction xs generalizing s with
  | nil => simp [pySetAddAll]
  | cons x rest ih =>
    show t ∈ pySetAddAll (pySetAdd s x) rest ↔ _
    rw [ih, mem_pySetAdd]
    simp only [List.mem_cons]
    tauto

theorem mem_pySetDiff {s xs : List String} {t : String} :
    t ∈ pySetDiff s xs ↔ t ∈ s ∧ t ∉ xs := by
  simp [pySetDiff]

theorem nodup_pySetAdd {s : List String} {x : String} (h : s.Nodup) :
    (pySetAdd s x).Nodup := by
  unfold pySetAdd
  split
  · exact h
  · next hx =>
    refine h.append (List.nodup_singleton x) ?_
    intro a ha hax
    rw [List.mem_singleton] at hax
    exact hx (hax ▸ ha)

theorem nodup_pySetAddAll {s xs : List String} (h : s.Nodup) :
    (pySetAddAll s xs).Nodup := by
  induction xs generalizing s with
  | nil => exact h
  | cons x rest ih => exact ih (nodup_pySetAdd h)

theorem nodup_pySetDiff {s : List String} (xs : List String) (h : s.Nodup) :
    (pySetDiff s xs).Nodup := h.filter _

theorem PRESETS_none : PRESETS "none" = "" := rfl

theorem mem_configure_tools_list {preset custom_tools remove_tools : String}
    {f1 f2 f3 f4 f5 f6 : Bool} {t : String} :
    t ∈ configure_tools_list preset custom_tools remove_tools f1 f2 f3 f4 f5 f6 ↔
      ((if preset = "none" then t ∈ toggleToolAdds f1 f2 f3 f4 f5 f6
        else t ∈ splitClean (PRESETS preset)) ∨ t ∈ splitClean custom_tools) ∧
        t ∉ splitClean remove_tools := by
  unfold configure_tools_list
  rw [(List.perm_insertionSort pyStrLe _).mem_iff]
  by_cases hp : preset = "none" <;>
    by_cases hc : custom_tools = "" <;>
      by_cases hr : remove_tools = "" <;>
        simp [hp, hc, hr, mem_pySetAddAll, mem_pySetDiff, List.mem_dedup,
          splitClean_empty, PRESETS_none, pySetOf]

theorem nodup_configure_tools_list (preset custom_tools remove_tools : String)
    (f1 f2 f3 f4 f5 f6 : Bool) :
    (configure_tools_list preset custom_tools remove_tools f1 f2 f3 f4 f5 f6).Nodup := by
  unfold configure_tools_list
  rw [(List.perm_insertionSort pyStrLe _).nodup_iff]
  have h0 : (pySetOf (splitClean (PRESETS preset))).Nodup := List.nodup_dedup _
  split <;> split <;> split <;>
    first
      | exact nodup_pySetDiff _ (nodup_pySetAddAll (nodup_pySetAddAll h0))
      | exact nodup_pySetDiff _ (nodup_pySetAddAll h0)
      | exact nodup_pySetDiff _ h0
      | exact nodup_pySetAddAll (nodup_pySetAddAll h0)
      | exact nodup_pySetAddAll h0
      | exact h0

/-- The set of tool names the claim describes: preset set (or toggle-derived
set exactly when the preset is `"none"`), union the custom-add set, minus the
remove set. -/
def claimToolSet (preset custom_tools remove_tools : String)
    (f1 f2 f3 f4 f5 f6 : Bool) : Finset String :=
  ((if preset = "none" then (toggleToolAdds f1 f2 f3 f4 f5 f6).toFinset
    else (splitClean (PRESETS preset)).toFinset) ∪
      (splitClean custom_tools).toFinset) \ (splitClean remove_tools).toFinset

/-- C1: for every preset name, custom-add list, remove list and toggle
assignment, `configure_tools` returns the comma-join of the lexicographically
sorted, duplicate-free list of `(preset-or-toggle set ∪ custom) \ remove`,
and the six capability toggles have no effect whenever the preset is not
`"none"`. -/
theorem configure_tools_correct (preset custom_tools remove_tools : String)
    (f1 f2 f3 f4 f5 f6 skip g1 g2 g3 g4 g5 g6 : Bool) :
    ((configure_tools preset custom_tools remove_tools f1 f2 f3 f4 f5 f6 skip).2.1 =
        joinComma (configure_tools_list preset custom_tools remove_tools f1 f2 f3 f4 f5 f6) ∧
      (configure_tools_list preset custom_tools remove_tools f1 f2 f3 f4 f5 f6).toFinset =
        claimToolSet preset custom_tools remove_tools f1 f2 f3 f4 f5 f6 ∧
      (configure_tools_list preset custom_tools remove_tools f1 f2 f3 f4 f5 f6).Sorted pyStrLe ∧
      (configure_tools_list preset custom_tools remove_tools f1 f2 f3 f4 f5 f6).Nodup) ∧
    (preset ≠ "none" →
      configure_tools preset custom_tools remove_tools f1 f2 f3 f4 f5 f6 skip =
        configure_tools preset custom_tools remove_tools g1 g2 g3 g4 g5 g6 skip) := by
  refine ⟨⟨rfl, ?_, List.sorted_insertionSort pyStrLe _, nodup_configure_tools_list _ _ _ _ _ _ _ _ _⟩, ?_⟩
  · ext t
    rw [List.mem_toFinset, mem_configure_tools_list]
    by_cases hp : preset = "none" <;> simp [claimToolSet, hp]
  · intro hp
    unfold configure_tools configure_tools_list
    simp only [if_neg hp]

/-! ## Lemmas about `splitOnSub` (Python split on a substring) -/

/-- A separator is border-free when no nonempty proper prefix of it is also a
suffix; occurrences of such a separator cannot overlap. -/
def borderFree (sep : List Char) : Prop :=
  ∀ k, k < sep.length → 0 < k → sep.take k ≠ sep.drop (sep.length - k)

instance (sep : List Char) : Decidable (borderFree sep) :=
  inferInstanceAs
    (Decidable (∀ k, k < sep.length → 0 < k → sep.take k ≠ sep.drop (sep.length - k)))

theorem splitOnSubGo_not_contains {sep : List Char} :
    ∀ (fuel : Nat) (s : List Char), s.length < fuel → ¬ sep <:+: s →
      splitOnSubGo sep fuel s = [s] := by
  intro fuel
  induction fuel with
  | zero => intro s h _; omega
  | succ fuel ih =>
    intro s hlen hinf
    have hguard : ¬ (sep.isPrefixOf s = true ∧ sep ≠ []) := by
      rintro ⟨hpre, -⟩
      exact hinf ( List.isPrefixOf_iff_prefix.mp hpre).isInfix
    cases s with
    | nil => rw [splitOnSubGo.eq_2, if_neg hguard]
    | cons c rest =>
      rw [splitOnSubGo.eq_3, if_neg hguard]
      have hrest : ¬ sep <:+: rest := fun h => hinf ( List.infix_cons h)
      rw [ih rest (by simpa using Nat.lt_of_succ_lt_succ hlen) hrest]

/-- A border-free separator that is not an infix of `a` cannot match at any
position strictly inside `a ++ sep ++ b` before the designated occurrence. -/
theorem no_cross_match {sep a b : List Char} (ha : a ≠ [])
    (hna : ¬ sep <:+: a) (hbf : borderFree sep) :
    ¬ sep <+: a ++ (sep ++ b) := by
  intro hp
  rcases le_or_lt sep.length a.length with hle | hlt
  · have h := List.prefix_iff_eq_take.mp hp
    rw [List.take_append_eq_append_take, Nat.sub_eq_zero_of_le hle,
      List.take_zero, List.append_nil] at h
    exact hna ( List.prefix_iff_eq_take.mpr h).isInfix
  · have h := List.prefix_iff_eq_take.mp hp
    rw [List.take_append_eq_append_take] at h
    set k := sep.length - a.length with hk
    have hka : 0 < k := by omega
    have hks : k < sep.length := by
      have : 0 < a.length := List.length_pos.mpr ha
      omega
    rw [List.take_append_eq_append_take, Nat.sub_eq_zero_of_le (le_of_lt hks),
      List.take_zero, List.append_nil] at h
    rw [List.take_of_length_le (le_of_lt hlt)] at h
    have hdrop : sep.drop (sep.length - k) = sep.take k := by
      have hlk : sep.length - k = a.length := by omega
      rw [hlk]
      conv_lhs => rw [h]
      exact List.drop_left a (sep.take k)
    exact hbf k hks hka hdrop.symm

theorem splitOnSubGo_append {sep : List Char} (hbf : borderFree sep)
    (hsep : sep ≠ []) :
    ∀ (a : List Char) (fuel : Nat) (b : List Char),
      a.length + sep.length + b.length < fuel →
      ¬ sep <:+: a → ¬ sep <:+: b →
      splitOnSubGo sep fuel (a ++ sep ++ b) = [a, b] := by
  have hseplen : 0 < sep.length := List.length_pos.mpr hsep
  intro a
  induction a with
  | nil =>
    intro fuel b hfuel ha hb
    cases fuel with
    | zero => omega
    | succ fuel =>
      cases sep with
      | nil => exact absurd rfl hsep
      | cons d sep2 =>
        have hpre : (d :: sep2).isPrefixOf (d :: (sep2 ++ b)) = true := by
          refine List.isPrefixOf_iff_prefix.mpr ?_
          have h := List.prefix_append (d :: sep2) b
          simp only [List.cons_append] at h
          exact h
        rw [show ((([] : List Char) ++ (d :: sep2)) ++ b) = d :: (sep2 ++ b) by simp]
        rw [splitOnSubGo.eq_3, if_pos ⟨hpre, hsep⟩]
        have hdrop : (d :: (sep2 ++ b)).drop (d :: sep2).length = b := by
          simp only [List.length_cons, List.drop_succ_cons]
          exact List.drop_left sep2 b
        rw [hdrop]
        rw [splitOnSubGo_not_contains fuel b (by simp at hfuel; omega) hb]
  | cons c a2 ih =>
    intro fuel b hfuel ha hb
    cases fuel with
    | zero => omega
    | succ fuel =>
      have hguard : ¬ (sep.isPrefixOf (c :: ((a2 ++ sep) ++ b)) = true ∧ sep ≠ []) := by
        rintro ⟨hpre, -⟩
        have hpre2 : sep <+: (c :: a2) ++ (sep ++ b) := by
          have := List.isPrefixOf_iff_prefix.mp hpre
          simpa [List.append_assoc] using this
        exact no_cross_match (List.cons_ne_nil c a2) ha hbf hpre2
      have ha2 : ¬ sep <:+: a2 := fun h => ha ( List.infix_cons h)
      have hrec := ih fuel b (by simp at hfuel ⊢; omega) ha2 hb
      rw [show (((c :: a2) ++ sep) ++ b) = c :: ((a2 ++ sep) ++ b) by simp]
      rw [splitOnSubGo.eq_3, if_neg hguard, hrec]

/-- Python split of `a ++ sep ++ b` recovers `[a, b]` when neither part
contains the (border-free) separator. -/
theorem splitOnSub_append {sep a b : List Char} (hbf : borderFree sep)
    (hsep : sep ≠ []) (ha : ¬ sep <:+: a) (hb : ¬ sep <:+: b) :
    splitOnSub sep (a ++ sep ++ b) = [a, b] := by
  unfold splitOnSub
  exact splitOnSubGo_append hbf hsep a _ b (by simp; omega) ha hb

theorem containsSub_iff {sep s : List Char} :
    containsSub sep s = true ↔ sep <:+: s := by
  induction s with
  | nil =>
    simp [containsSub, List.isEmpty_iff, List.infix_nil]
  | cons c rest ih =>
    simp only [containsSub, Bool.or_eq_true, List.isPrefixOf_iff_prefix, ih,
      List.infix_cons_iff]

theorem prefix_append_cons {sep x y : List Char} {c : Char} (hc : c ∉ sep) :
    sep <+: x ++ c :: y → sep <+: x := by
  intro h
  have ht := List.prefix_iff_eq_take.mp h
  rcases le_or_lt sep.length x.length with hle | hlt
  · rw [List.take_append_eq_append_take, Nat.sub_eq_zero_of_le hle, List.take_zero,
      List.append_nil] at ht
    exact List.prefix_iff_eq_take.mpr ht
  · exfalso
    rw [List.take_append_eq_append_take] at ht
    rcases hk : sep.length - x.length with - | m
    · omega
    · rw [hk, List.take_succ_cons] at ht
      exact hc (ht ▸ List.mem_append_right _ (List.mem_cons_self c _))

theorem infix_append_cons {sep y : List Char} {c : Char} (hc : c ∉ sep)
    (hsep : sep ≠ []) :
    ∀ x : List Char, sep <:+: x ++ c :: y → sep <:+: x ∨ sep <:+: y := by
  intro x
  induction x with
  | nil =>
    intro h
    rw [List.nil_append] at h
    rcases List.infix_cons_iff.mp h with hp | hi
    · exfalso
      have h0 : sep <+: ([] : List Char) := prefix_append_cons hc (by simpa using hp)
      exact hsep ( List.prefix_nil.mp h0)
    · exact Or.inr hi
  | cons d x2 ih =>
    intro h
    rw [List.cons_append] at h
    rcases List.infix_cons_iff.mp h with hp | hi
    · left
      have h0 : sep <+: d :: x2 := by
        refine prefix_append_cons hc (x := d :: x2) (y := y) ?_
        simpa [List.cons_append] using hp
      exact h0.isInfix
    · rcases ih hi with h1 | h2
      · exact Or.inl ( List.infix_cons h1)
      · exact Or.inr h2

theorem intercalate_nil_eq (s : List Char) : List.intercalate s [] = [] := by
  simp [List.intercalate]

theorem intercalate_single (s a : List Char) : List.intercalate s [a] = a := by
  simp [List.intercalate]

theorem intercalate_cons_ne_nil (s a : List Char) (l : List (List Char))
    (h : l ≠ []) : List.intercalate s (a :: l) = a ++ s ++ List.intercalate s l := by
  cases l with
  | nil => exact absurd rfl h
  | cons b t =>
    simp [List.intercalate, List.intersperse_cons_cons, List.append_assoc]

theorem not_infix_intercalate {sep : List Char} (hsep : sep ≠ [])
    (hc : ',' ∉ sep) :
    ∀ l : List (List Char), (∀ t ∈ l, ¬ sep <:+: t) →
      ¬ sep <:+: List.intercalate [','] l := by
  intro l
  induction l with
  | nil =>
    intro _ h
    rw [intercalate_nil_eq] at h
    exact hsep ( List.infix_nil.mp h)
  | cons a t ih =>
    intro hall h
    cases t with
    | nil =>
      rw [intercalate_single] at h
      exact hall a (List.mem_cons_self a _) h
    | cons b t2 =>
      rw [intercalate_cons_ne_nil _ _ _ (List.cons_ne_nil b t2)] at h
      have h2 : sep <:+: a ++ ',' :: List.intercalate [','] (b :: t2) := by
        simpa [List.append_assoc] using h
      rcases infix_append_cons hc hsep a h2 with h3 | h4
      · exact hall a (List.mem_cons_self a _) h3
      · exact ih (fun u hu => hall u (List.mem_cons_of_mem a hu)) h4

/-! ## Properties of `pyStripL` and `splitClean` -/

theorem head?_dropWhile (p : Char → Bool) (l : List Char) :
    ∀ c ∈ (l.dropWhile p).head?, p c = false := by
  induction l with
  | nil => simp
  | cons d t ih =>
    by_cases hd : p d = true
    · rw [List.dropWhile_cons, if_pos hd]
      exact ih
    · rw [List.dropWhile_cons, if_neg hd]
      intro c hcm
      rw [List.head?_cons, Option.mem_some_iff] at hcm
      rw [← hcm]
      simpa using hd

theorem dropWhile_eq_self_of_head {p : Char → Bool} {l : List Char}
    (h : ∀ c ∈ l.head?, p c = false) : l.dropWhile p = l := by
  cases l with
  | nil => rfl
  | cons d t =>
    have hd : p d = false := h d (by simp)
    simp [List.dropWhile_cons, hd]

theorem pyStripL_fix {l : List Char}
    (hh : ∀ c ∈ l.head?, isPySpace c = false)
    (hl : ∀ c ∈ l.getLast?, isPySpace c = false) : pyStripL l = l := by
  unfold pyStripL
  rw [dropWhile_eq_self_of_head hh]
  rw [dropWhile_eq_self_of_head (by rw [List.head?_reverse]; exact hl)]
  exact List.reverse_reverse l

theorem pyStripL_ends (l : List Char) :
    (∀ c ∈ (pyStripL l).head?, isPySpace c = false) ∧
      (∀ c ∈ (pyStripL l).getLast?, isPySpace c = false) := by
  unfold pyStripL
  constructor
  · intro c hc
    rcases hB : ((l.dropWhile isPySpace).reverse.dropWhile isPySpace) with - | ⟨d, B2⟩
    · rw [hB] at hc; simp at hc
    · have hsuf : (d :: B2) <:+ (l.dropWhile isPySpace).reverse := by
        rw [← hB]; exact List.dropWhile_suffix isPySpace
      have hpre : (d :: B2).reverse <+: l.dropWhile isPySpace := by
        have := List.reverse_prefix.mpr hsuf
        rwa [List.reverse_reverse] at this
      rcases hpre with ⟨tail, htail⟩
      rw [hB] at hc
      rcases hrev : (d :: B2).reverse with - | ⟨e, R2⟩
      · exact absurd (congrArg List.length hrev) (by simp)
      · rw [hrev] at htail hc
        rw [List.head?_cons, Option.mem_some_iff] at hc
        have hdw := head?_dropWhile isPySpace l
        rw [← htail] at hdw
        have he := hdw e (by simp)
        rw [← hc]
        exact he
  · intro c hc
    rw [List.getLast?_reverse] at hc
    exact head?_dropWhile isPySpace _ c hc

theorem pyStripL_idem (l : List Char) : pyStripL (pyStripL l) = pyStripL l :=
  pyStripL_fix (pyStripL_ends l).1 (pyStripL_ends l).2

theorem mem_of_mem_pyStripL {c : Char} {l : List Char} (h : c ∈ pyStripL l) :
    c ∈ l := by
  unfold pyStripL at h
  rw [List.mem_reverse] at h
  have h2 := (List.dropWhile_sublist isPySpace).subset h
  rw [List.mem_reverse] at h2
  exact (List.dropWhile_sublist isPySpace).subset h2

theorem not_pred_of_mem_splitOnP {p : Char → Bool} :
    ∀ {l e : List Char}, e ∈ l.splitOnP p → ∀ c ∈ e, p c = false := by
  intro l
  induction l with
  | nil =>
    intro e he
    rw [List.splitOnP_nil, List.mem_singleton] at he
    subst he
    intro c hc
    exact absurd hc (List.not_mem_nil c)
  | cons x xs ih =>
    intro e he
    rw [List.splitOnP_cons] at he
    by_cases hx : p x = true
    · rw [if_pos hx, List.mem_cons] at he
      rcases he with rfl | he
      · intro c hc; exact absurd hc (List.not_mem_nil c)
      · exact ih he
    · rw [if_neg hx] at he
      rcases hsp : xs.splitOnP p with - | ⟨h0, t0⟩
      · exact absurd hsp (List.splitOnP_ne_nil p xs)
      · rw [hsp, List.modifyHead_cons, List.mem_cons] at he
        rcases he with rfl | he
        · intro c hc
          rw [List.mem_cons] at hc
          rcases hc with rfl | hc
          · simpa using hx
          · exact ih (hsp ▸ List.mem_cons_self h0 t0) c hc
        · exact ih (hsp ▸ List.mem_cons_of_mem h0 he)

theorem not_comma_of_mem_splitOn {l e : List Char} (he : e ∈ l.splitOn ',') :
    ',' ∉ e := by
  intro hc
  have h := not_pred_of_mem_splitOnP (p := (· == ',')) he ',' hc
  simp at h

/-- Every element produced by `splitClean` is nonempty, already stripped, and
contains no comma. -/
theorem splitClean_element_props {s : String} :
    ∀ t ∈ splitClean s, t ≠ "" ∧ pyStripL t.data = t.data ∧ ',' ∉ t.data := by
  intro t ht
  unfold splitClean at ht
  rw [List.mem_filter] at ht
  obtain ⟨hmap, hne⟩ := ht
  rw [List.mem_map] at hmap
  obtain ⟨seg, hseg, rfl⟩ := hmap
  refine ⟨by simpa using hne, pyStripL_idem seg, ?_⟩
  intro hc
  exact not_comma_of_mem_splitOn hseg (mem_of_mem_pyStripL hc)

/-- The ten tool names the capability toggles can add. -/
def toggleToolNames : List String :=
  ["Read", "LS", "Write", "Edit", "MultiEdit", "Bash", "Grep", "Glob",
   "WebFetch", "WebSearch"]

theorem toggleToolAdds_subset {f1 f2 f3 f4 f5 f6 : Bool} :
    ∀ t ∈ toggleToolAdds f1 f2 f3 f4 f5 f6, t ∈ toggleToolNames := by
  intro t ht
  simp only [toggleToolAdds, List.mem_append] at ht
  rcases ht with ((((h | h) | h) | h) | h) | h <;>
    · split at h
      · simp only [toggleToolNames]; simp at h ⊢; tauto
      · simp at h

theorem toggleToolNames_props :
    ∀ t ∈ toggleToolNames, t ≠ "" ∧ pyStripL t.data = t.data ∧ ',' ∉ t.data := by
  decide

/-- Every tool name produced by `configure_tools_list` is nonempty, stripped,
and comma-free. -/
theorem configure_tools_list_element_props {preset custom_tools remove_tools : String}
    {f1 f2 f3 f4 f5 f6 : Bool} :
    ∀ t ∈ configure_tools_list preset custom_tools remove_tools f1 f2 f3 f4 f5 f6,
      t ≠ "" ∧ pyStripL t.data = t.data ∧ ',' ∉ t.data := by
  intro t ht
  rw [mem_configure_tools_list] at ht
  obtain ⟨h1, -⟩ := ht
  rcases h1 with h1 | h1
  · by_cases hp : preset = "none"
    · rw [if_pos hp] at h1
      exact toggleToolNames_props t (toggleToolAdds_subset t h1)
    · rw [if_neg hp] at h1
      exact splitClean_element_props t h1
  · exact splitClean_element_props t h1

/-! ## The tool-configuration string convention and the execute-side parser -/

/-- Python exceptions that the embedded code can raise. -/
inductive PyErr where
  | valueError (msg : String)
  | attributeError (msg : String)
  | typeError (msg : String)
  deriving DecidableEq, Repr

/-- The delimiter `"|skip_permissions:"` between the tool list and the
skip-permissions flag. -/
def markerS : String := "|skip_permissions:"

/-- Lines 245-252 of `claude_code_execute.py`: recover the tool list and the
skip-permissions boolean from the tool-configuration string.  A `ValueError`
is raised by the two-variable unpacking when the marker occurs more than
once. -/
def parseToolsConfig (tools : String) : Except PyErr (List String × Bool) :=
  if tools = "" then .ok ([], false)
  else if containsSub markerS.data tools.data then
    match splitOnSub markerS.data tools.data with
    | [a, b] =>
      .ok (splitClean (String.mk a), decide (pyLower (String.mk b) = "true"))
    | _ => .error (.valueError "too many values to unpack")
  else .ok (splitClean tools, false)

theorem mk_data (s : String) : String.mk s.data = s := by
  cases s; rfl

/-- The function `splitClean` is a left inverse of `joinComma` on lists of nonempty,
stripped, comma-free names. -/
theorem splitClean_joinComma {l : List String}
    (h : ∀ t ∈ l, t ≠ "" ∧ pyStripL t.data = t.data ∧ ',' ∉ t.data) :
    splitClean (joinComma l) = l := by
  cases l with
  | nil => rfl
  | cons a t =>
    unfold splitClean joinComma
    have hsplit : (List.intercalate [','] ((a :: t).map String.data)).splitOn ',' =
        (a :: t).map String.data := by
      refine List.splitOn_intercalate ((a :: t).map String.data) ',' ?_ ?_
      · intro u hu
        rw [List.mem_map] at hu
        obtain ⟨v, hv, rfl⟩ := hu
        exact (h v hv).2.2
      · simp
    show ((((String.mk (List.intercalate [','] ((a :: t).map String.data))).data.splitOn
        ',').map (fun u => String.mk (pyStripL u))).filter (· ≠ "")) = a :: t
    rw [show (String.mk (List.intercalate [','] ((a :: t).map String.data))).data =
      List.intercalate [','] ((a :: t).map String.data) from rfl]
    rw [hsplit, List.map_map]
    have hmap : ((a :: t).map ((fun u => String.mk (pyStripL u)) ∘ String.data)) =
        (a :: t).map id := by
      refine List.map_congr_left ?_
      intro v hv
      show String.mk (pyStripL v.data) = v
      rw [(h v hv).2.1, mk_data]
    rw [hmap, List.map_id]
    rw [List.filter_eq_self]
    intro v hv
    simpa using (h v hv).1

/-- C4: the execute node's split on the `|skip_permissions:` marker exactly
recovers the tool list and skip-permissions boolean that `configure_tools`
packaged, whenever no produced tool name contains the marker itself. -/
theorem tools_config_roundtrip (preset custom_tools remove_tools : String)
    (f1 f2 f3 f4 f5 f6 skip : Bool)
    (hm : ∀ t ∈ configure_tools_list preset custom_tools remove_tools f1 f2 f3 f4 f5 f6,
      ¬ markerS.data <:+: t.data) :
    parseToolsConfig
        (configure_tools preset custom_tools remove_tools f1 f2 f3 f4 f5 f6 skip).1 =
      .ok (configure_tools_list preset custom_tools remove_tools f1 f2 f3 f4 f5 f6,
        skip) := by
  set L := configure_tools_list preset custom_tools remove_tools f1 f2 f3 f4 f5 f6
    with hLdef
  have hprops : ∀ t ∈ L, t ≠ "" ∧ pyStripL t.data = t.data ∧ ',' ∉ t.data :=
    configure_tools_list_element_props
  have hJdata : (joinComma L).data = List.intercalate [','] (L.map String.data) := rfl
  have hJ : ¬ markerS.data <:+: (joinComma L).data := by
    rw [hJdata]
    refine not_infix_intercalate (by decide) (by decide) _ ?_
    intro u hu
    rw [List.mem_map] at hu
    obtain ⟨v, hv, rfl⟩ := hu
    exact hm v hv
  have hB : ¬ markerS.data <:+: (pyBoolStr skip).data := by
    cases skip <;> decide
  have hout : (configure_tools preset custom_tools remove_tools f1 f2 f3 f4 f5 f6 skip).1 =
      joinComma L ++ markerS ++ pyBoolStr skip := rfl
  have hdata : (joinComma L ++ markerS ++ pyBoolStr skip).data =
      (joinComma L).data ++ markerS.data ++ (pyBoolStr skip).data := by
    simp [String.data_append]
  have hne : joinComma L ++ markerS ++ pyBoolStr skip ≠ "" := by
    intro h
    have h2 := congrArg String.data h
    rw [hdata] at h2
    have h3 := congrArg List.length h2
    rw [List.length_append, List.length_append] at h3
    have h4 : markerS.data.length = 18 := rfl
    have h5 : ("" : String).data.length = 0 := rfl
    omega
  have hcs : containsSub markerS.data
      ((joinComma L).data ++ markerS.data ++ (pyBoolStr skip).data) = true :=
    containsSub_iff.mpr ( List.infix_append _ _ _)
  have hsplit : splitOnSub markerS.data
      ((joinComma L).data ++ markerS.data ++ (pyBoolStr skip).data) =
      [(joinComma L).data, (pyBoolStr skip).data] :=
    splitOnSub_append (by decide) (by decide) hJ hB
  rw [hout]
  unfold parseToolsConfig
  rw [if_neg hne]
  rw [hdata, if_pos hcs, hsplit]
  show Except.ok (splitClean (String.mk (joinComma L).data),
      decide (pyLower (String.mk (pyBoolStr skip).data) = "true")) =
    Except.ok (L, skip)
  rw [mk_data, mk_data, splitClean_joinComma hprops]
  have hbool : decide (pyLower (pyBoolStr skip) = "true") = skip := by
    cases skip <;> rfl
  rw [hbool]

/-! ## Reddit scraper URL builder (`claude_reddit_scraper.py`, lines 171-193) -/

/-- Model of `ClaudeRedditScraper.build_reddit_url`.  Note that Python
`str.lstrip("/r/")` strips every leading character belonging to the character
set of its argument. -/
def build_reddit_url (source_type source sort_by time_filter : String) : String :=
  if source_type = "url" then source
  else if source_type = "subreddit" then
    let subreddit := pyLstripSet ['/', 'r'] (pyStrip source)
    if sort_by = "top" ∨ sort_by = "controversial" then
      "https://reddit.com/r/" ++ subreddit ++ "/" ++ sort_by ++ "/?t=" ++ time_filter
    else
      "https://reddit.com/r/" ++ subreddit ++ "/" ++ sort_by ++ "/"
  else if source_type = "search" then
    "https://reddit.com/search/?q=" ++ source
  else if source_type = "user" then
    "https://reddit.com/user/" ++
      pyLstripSet ['u', '/'] (pyLstripSet ['/', 'u'] (pyStrip source))
  else source

/-! ## Memory Builder (`claude_code_memory.py`) -/

/-- Filesystem oracle for the Memory Builder: path existence and the outcome
of reading a file (`.error e` models an exception with message `e`). -/
structure MemFS where
  memoriesDir : String
  pathExists : String → Bool
  readFile : String → Except String String

/-- Python `"".join l`. -/
def pyConcat (l : List String) : String :=
  String.mk (l.map String.data).flatten

/-- Model of `ClaudeCodeMemory.build_memory`: collect the `memory_parts` list exactly as
the Python code does, join and strip. -/
def build_memory (fs : MemFS) (memory_type memory_file text_memory file_path
    claude_md_content append_to : String) : String × String :=
  let parts : List String :=
    (if append_to ≠ "" then [append_to, "\n\n"] else []) ++
    (if memory_type = "text" then
      (if text_memory ≠ "" then [text_memory] else [])
    else if memory_type = "memory_file" then
      (if memory_file ≠ "[Custom Memory]" then
        (if fs.pathExists (fs.memoriesDir ++ "/" ++ memory_file) then
          match fs.readFile (fs.memoriesDir ++ "/" ++ memory_file) with
          | .ok c => [c]
          | .error e => ["Error reading memory file " ++ memory_file ++ ": " ++ e]
        else ["Error: Memory file not found: " ++ memory_file])
      else if text_memory ≠ "" then [text_memory] else [])
    else if memory_type = "file" then
      (if file_path ≠ "" ∧ fs.pathExists file_path then
        match fs.readFile file_path with
        | .ok c => [c]
        | .error e => ["Error reading file " ++ file_path ++ ": " ++ e]
      else if file_path ≠ "" then ["Error: File not found: " ++ file_path]
      else [])
    else if memory_type = "claude_md" then
      (if claude_md_content ≠ "" then [claude_md_content] else [])
    else if memory_type = "combined" then
      (if claude_md_content ≠ "" then [claude_md_content, "\n\n"] else []) ++
      (if text_memory ≠ "" then
        ["## Additional Context\n\n", text_memory, "\n\n"] else []) ++
      (if file_path ≠ "" ∧ fs.pathExists file_path then
        match fs.readFile file_path with
        | .ok c => ["## File Content\n\n", c]
        | .error e => ["Error reading file: " ++ e]
      else [])
    else [])
  let memory := pyStrip (pyConcat parts)
  (memory, memory)

theorem data_inj {a b : String} (h : a.data = b.data) : a = b := by
  cases a; cases b; exact congrArg String.mk h

theorem data_ne_nil_of_ne {s : String} (h : s ≠ "") : s.data ≠ [] := by
  intro e
  apply h
  rw [← mk_data s, e]

/-- C10: for source type `subreddit` the code strips every leading `/` or `r`
character (Python `lstrip` takes a character set), so `"rust"` becomes
`"ust"`; the analogous set-stripping with `/`,`u` applies to source type
`user`. -/
theorem build_reddit_url_lstrip_set (source sort_by time_filter : String)
    (h1 : sort_by ≠ "top") (h2 : sort_by ≠ "controversial") :
    build_reddit_url "subreddit" source sort_by time_filter =
        "https://reddit.com/r/" ++ pyLstripSet ['/', 'r'] (pyStrip source) ++
          "/" ++ sort_by ++ "/" ∧
    build_reddit_url "subreddit" "rust" "hot" "day" =
        "https://reddit.com/r/ust/hot/" ∧
    (∀ s : String, (pyStrip s).data.head? = some 'r' →
      pyLstripSet ['/', 'r'] (pyStrip s) ≠ pyStrip s) ∧
    build_reddit_url "user" source sort_by time_filter =
        "https://reddit.com/user/" ++
          pyLstripSet ['u', '/'] (pyLstripSet ['/', 'u'] (pyStrip source)) := by
  refine ⟨?_, by decide, ?_, ?_⟩
  · unfold build_reddit_url
    rw [if_neg (by decide), if_pos rfl, if_neg (by rintro (h | h) <;> [exact h1 h; exact h2 h])]
  · intro s hhead
    intro heq
    have hd := congrArg String.data heq
    rcases he : (pyStrip s).data with - | ⟨c, t⟩
    · rw [he] at hhead; exact absurd hhead (by simp)
    · rw [he] at hhead
      rw [List.head?_cons, Option.some_inj] at hhead
      subst hhead
      unfold pyLstripSet at hd
      rw [show (String.mk ((pyStrip s).data.dropWhile
            (fun c => (['/', 'r'] : List Char).contains c))).data =
          (pyStrip s).data.dropWhile (fun c => (['/', 'r'] : List Char).contains c)
          from rfl, he] at hd
      rw [List.dropWhile_cons, if_pos (by decide)] at hd
      have hlen := congrArg List.length hd
      have hle := (List.dropWhile_sublist
        (l := t) (fun c => (['/', 'r'] : List Char).contains c)).length_le
      rw [List.length_cons] at hlen
      omega
  · unfold build_reddit_url
    rw [if_neg (by decide), if_neg (by decide), if_neg (by decide), if_pos rfl]

/-- Ordered containment of five fragments, with arbitrary gaps. -/
def containsInOrder5 (s t1 t2 t3 t4 t5 : List Char) : Prop :=
  ∃ g0 g1 g2 g3 g4 g5,
    s = g0 ++ t1 ++ g1 ++ t2 ++ g2 ++ t3 ++ g3 ++ t4 ++ g4 ++ t5 ++ g5

/-- Filesystem oracle for the C7 counterexample: a single readable file
`f.txt` whose content ends in a newline. -/
def memFS7 : MemFS where
  memoriesDir := "memories"
  pathExists := fun p => decide (p = "f.txt")
  readFile := fun _ => .ok "F\n"

/-- C7 counterexample: with template `"T"`, text `"X"` and a readable file
whose content is `"F\n"`, the final `strip()` removes the trailing newline,
so the output does not contain the file content `"F\n"` at all, and in
particular not after the `"## File Content"` heading. -/
theorem build_memory_combined_counterexample :
    (build_memory memFS7 "combined" "[Custom Memory]" "X" "f.txt" "T" "").1 =
        "T\n\n## Additional Context\n\nX\n\n## File Content\n\nF" ∧
    ¬ (containsInOrder5
          (build_memory memFS7 "combined" "[Custom Memory]" "X" "f.txt" "T" "").1.data
          "T".data "## Additional Context".data "X".data "## File Content".data
          ("F\n").data ∧
        pyStrip (build_memory memFS7 "combined" "[Custom Memory]" "X" "f.txt" "T" "").1 =
          (build_memory memFS7 "combined" "[Custom Memory]" "X" "f.txt" "T" "").1) := by
  refine ⟨by decide, ?_⟩
  rintro ⟨⟨g0, g1, g2, g3, g4, g5, heq⟩, -⟩
  have hinf : ("F\n").data <:+:
      (build_memory memFS7 "combined" "[Custom Memory]" "X" "f.txt" "T" "").1.data := by
    refine ⟨g0 ++ "T".data ++ g1 ++ "## Additional Context".data ++ g2 ++ "X".data ++
      g3 ++ "## File Content".data ++ g4, g5, ?_⟩
    rw [heq]
  have hno : ¬ ("F\n").data <:+:
      (build_memory memFS7 "combined" "[Custom Memory]" "X" "f.txt" "T" "").1.data := by
    decide
  exact hno hinf

/-- C7 (amended): in `combined` mode with no prior memory, nonempty template
`T` not starting with whitespace, nonempty text `X`, and a readable nonempty
file content `F` not ending with whitespace, the result is exactly
`T ++ "\n\n## Additional Context\n\n" ++ X ++ "\n\n## File Content\n\n" ++ F`;
hence it contains the five fragments in order and is its own `strip`. -/
theorem build_memory_combined_exact (fs : MemFS) (mf X path T F : String)
    (hT : T ≠ "") (hX : X ≠ "") (hpath : path ≠ "")
    (hex : fs.pathExists path = true) (hread : fs.readFile path = .ok F)
    (hF : F ≠ "")
    (hTh : ∀ c ∈ T.data.head?, isPySpace c = false)
    (hFl : ∀ c ∈ F.data.getLast?, isPySpace c = false) :
    (build_memory fs "combined" mf X path T "").1 =
        T ++ "\n\n## Additional Context\n\n" ++ X ++ "\n\n## File Content\n\n" ++ F ∧
    containsInOrder5 (build_memory fs "combined" mf X path T "").1.data
        T.data "## Additional Context".data X.data "## File Content".data F.data ∧
    pyStrip (build_memory fs "combined" mf X path T "").1 =
      (build_memory fs "combined" mf X path T "").1 := by
  have hb : (build_memory fs "combined" mf X path T "").1 =
      pyStrip (pyConcat [T, "\n\n", "## Additional Context\n\n", X, "\n\n",
        "## File Content\n\n", F]) := by
    unfold build_memory
    simp [hT, hX, hpath, hex, hread]
  have hjd : (pyConcat [T, "\n\n", "## Additional Context\n\n", X, "\n\n",
      "## File Content\n\n", F]).data =
      T.data ++ ("\n\n## Additional Context\n\n".data ++ (X.data ++
        ("\n\n## File Content\n\n".data ++ F.data))) := by
    show T.data ++ ("\n\n".data ++ ("## Additional Context\n\n".data ++ (X.data ++
        ("\n\n".data ++ ("## File Content\n\n".data ++ (F.data ++ [])))))) = _
    rw [List.append_nil]
    have e1 : ("\n\n".data ++ "## Additional Context\n\n".data) =
        "\n\n## Additional Context\n\n".data := by decide
    have e2 : ("\n\n".data ++ "## File Content\n\n".data) =
        "\n\n## File Content\n\n".data := by decide
    rw [← e1, ← e2]
    simp [List.append_assoc]
  have hstrip : pyStripL (pyConcat [T, "\n\n", "## Additional Context\n\n", X, "\n\n",
      "## File Content\n\n", F]).data =
      (pyConcat [T, "\n\n", "## Additional Context\n\n", X, "\n\n",
      "## File Content\n\n", F]).data := by
    refine pyStripL_fix ?_ ?_
    · rw [hjd, List.head?_append_of_ne_nil _ (data_ne_nil_of_ne hT)]
      exact hTh
    · rw [hjd]
      intro c hc
      rw [List.getLast?_append, List.getLast?_append, List.getLast?_append] at hc
      rcases hFd : F.data.getLast? with - | ⟨y⟩
      · exact absurd (List.getLast?_eq_none_iff.mp hFd) (data_ne_nil_of_ne hF)
      · rw [List.getLast?_append, hFd] at hc
        simp only [Option.or_some] at hc
        exact hFl c (by rw [hFd]; exact hc)
  have hres : (build_memory fs "combined" mf X path T "").1 =
      T ++ "\n\n## Additional Context\n\n" ++ X ++ "\n\n## File Content\n\n" ++ F := by
    rw [hb]
    refine data_inj ?_
    show pyStripL (pyConcat [T, "\n\n", "## Additional Context\n\n", X, "\n\n",
      "## File Content\n\n", F]).data = _
    rw [hstrip, hjd]
    simp [String.data_append, List.append_assoc]
  refine ⟨hres, ?_, ?_⟩
  · refine ⟨[], "\n\n".data, "\n\n".data, "\n\n".data, "\n\n".data, [], ?_⟩
    rw [hres]
    have e1 : ("\n\n## Additional Context\n\n" : String).data =
        "\n\n".data ++ "## Additional Context".data ++ "\n\n".data := by decide
    have e2 : ("\n\n## File Content\n\n" : String).data =
        "\n\n".data ++ "## File Content".data ++ "\n\n".data := by decide
    simp [String.data_append, e1, e2, List.append_assoc]
  · rw [hres, ← hres, hb]
    refine data_inj ?_
    show pyStripL (pyStrip (pyConcat [T, "\n\n", "## Additional Context\n\n", X, "\n\n",
      "## File Content\n\n", F])).data = _
    show pyStripL (pyStripL (pyConcat [T, "\n\n", "## Additional Context\n\n", X, "\n\n",
      "## File Content\n\n", F]).data) = _
    rw [pyStripL_idem]
    rfl

/-! ## A model of Python `json` values, `json.loads` and `json.dumps`

The parser and serializer below model the fragment of Python's `json` module
that the nodes exercise: objects, arrays, double-quoted strings with the
simple escapes, integer numbers, `true`/`false`/`null`.  Python dicts are
association lists in insertion order; storing an existing key updates it in
place, new keys are appended. -/

inductive Json where
  | null
  | bool (b : Bool)
  | num (n : Int)
  | str (s : String)
  | arr (xs : List Json)
  | obj (kvs : List (String × Json))

/-- Opening brace character. -/
def lbrace : Char := Char.ofNat 123

/-- Closing brace character. -/
def rbrace : Char := Char.ofNat 125

/-- JSON whitespace. -/
def skipWs (s : List Char) : List Char :=
  s.dropWhile (fun c => c = ' ' || c = '\t' || c = '\n' || c = '\r')

/-- Python dict lookup. -/
def jLookup (kvs : List (String × Json)) (k : String) : Option Json :=
  match kvs with
  | [] => none
  | (k2, v) :: rest => if k2 = k then some v else jLookup rest k

/-- Python dict item assignment: update an existing key in place, append a
new key. -/
def jSet (kvs : List (String × Json)) (k : String) (v : Json) :
    List (String × Json) :=
  match kvs with
  | [] => [(k, v)]
  | (k2, v2) :: rest => if k2 = k then (k2, v) :: rest else (k2, v2) :: jSet rest k v

/-- Python `dict.update`, iterating the other dict in order. -/
def jUpdate (base upd : List (String × Json)) : List (String × Json) :=
  upd.foldl (fun acc kv => jSet acc kv.1 kv.2) base

/-- Integer literal parsing (the model is restricted to integer JSON
numbers). -/
def parseNum (s : List Char) : Except String (Json × List Char) :=
  let (neg, s1) : Bool × List Char :=
    match s with
    | '-' :: r => (true, r)
    | _ => (false, s)
  let digits := s1.takeWhile Char.isDigit
  let rest := s1.dropWhile Char.isDigit
  if digits.isEmpty then .error "Expecting value"
  else
    let ok : Bool :=
      match rest with
      | c :: _ => !(c = '.' || c = 'e' || c = 'E')
      | [] => true
    if ok then
      let n : Nat := digits.foldl (fun n c => n * 10 + (c.toNat - 48)) 0
      .ok (.num (if neg then -(n : Int) else (n : Int)), rest)
    else .error "unsupported number form"

mutual

def parseVal (fuel : Nat) (s : List Char) : Except String (Json × List Char) :=
  match fuel with
  | 0 => .error "nesting too deep"
  | fuel + 1 =>
    match skipWs s with
    | [] => .error "Expecting value"
    | c :: rest =>
      if c = lbrace then parseObjBody fuel rest
      else if c = '[' then parseArrBody fuel rest
      else if c = '"' then
        match parseStrBody fuel rest [] with
        | .ok (k, rem) => .ok (.str k, rem)
        | .error e => .error e
      else if c = 't' then
        if ("rue".data).isPrefixOf rest then .ok (.bool true, rest.drop 3)
        else .error "Expecting value"
      else if c = 'f' then
        if ("alse".data).isPrefixOf rest then .ok (.bool false, rest.drop 4)
        else .error "Expecting value"
      else if c = 'n' then
        if ("ull".data).isPrefixOf rest then .ok (.null, rest.drop 3)
        else .error "Expecting value"
      else if c = '-' ∨ c.isDigit then parseNum (c :: rest)
      else .error "Expecting value"

def parseObjBody (fuel : Nat) (s : List Char) : Except String (Json × List Char) :=
  match fuel with
  | 0 => .error "nesting too deep"
  | fuel + 1 =>
    match skipWs s with
    | [] => .error "Unterminated object"
    | c :: rest =>
      if c = rbrace then .ok (.obj [], rest)
      else parseMembers fuel (c :: rest) []

def parseMembers (fuel : Nat) (s : List Char) (acc : List (String × Json)) :
    Except String (Json × List Char) :=
  match fuel with
  | 0 => .error "nesting too deep"
  | fuel + 1 =>
    match skipWs s with
    | '"' :: rest =>
      match parseStrBody fuel rest [] with
      | .error e => .error e
      | .ok (k, rem) =>
        match skipWs rem with
        | ':' :: rem2 =>
          match parseVal fuel rem2 with
          | .error e => .error e
          | .ok (v, rem3) =>
            match skipWs rem3 with
            | ',' :: rem4 => parseMembers fuel rem4 (jSet acc k v)
            | c :: rem4 =>
              if c = rbrace then .ok (.obj (jSet acc k v), rem4)
              else .error "Expecting delimiter"
            | [] => .error "Unterminated object"
        | _ => .error "Expecting colon delimiter"
    | _ => .error "Expecting property name"

def parseArrBody (fuel : Nat) (s : List Char) : Except String (Json × List Char) :=
  match fuel with
  | 0 => .error "nesting too deep"
  | fuel + 1 =>
    match skipWs s with
    | [] => .error "Unterminated array"
    | c :: rest =>
      if c = ']' then .ok (.arr [], rest)
      else parseElems fuel (c :: rest) []

def parseElems (fuel : Nat) (s : List Char) (acc : List Json) :
    Except String (Json × List Char) :=
  match fuel with
  | 0 => .error "nesting too deep"
  | fuel + 1 =>
    match parseVal fuel s with
    | .error e => .error e
    | .ok (v, rem) =>
      match skipWs rem with
      | ',' :: rem2 => parseElems fuel rem2 (acc ++ [v])
      | c :: rem2 =>
        if c = ']' then .ok (.arr (acc ++ [v]), rem2)
        else .error "Expecting delimiter"
      | [] => .error "Unterminated array"

def parseStrBody (fuel : Nat) (s : List Char) (acc : List Char) :
    Except String (String × List Char) :=
  match fuel with
  | 0 => .error "nesting too deep"
  | fuel + 1 =>
    match s with
    | [] => .error "Unterminated string"
    | c :: rest =>
      if c = '"' then .ok (String.mk acc.reverse, rest)
      else if c = '\\' then
        match rest with
        | [] => .error "Unterminated string"
        | e :: rest2 =>
          if e = '"' ∨ e = '\\' ∨ e = '/' then parseStrBody fuel rest2 (e :: acc)
          else if e = 'n' then parseStrBody fuel rest2 ('\n' :: acc)
          else if e = 't' then parseStrBody fuel rest2 ('\t' :: acc)
          else if e = 'r' then parseStrBody fuel rest2 ('\r' :: acc)
          else if e = 'b' then parseStrBody fuel rest2 ('\x08' :: acc)
          else if e = 'f' then parseStrBody fuel rest2 ('\x0c' :: acc)
          else .error "Invalid escape"
      else parseStrBody fuel rest (c :: acc)

end

/-- Model of Python `json.loads`. -/
def json_loads (s : String) : Except String Json :=
  match parseVal (2 * s.data.length + 8) s.data with
  | .ok (v, rem) => if skipWs rem = [] then .ok v else .error "Extra data"
  | .error e => .error e

/-- Digits of a natural number, most significant first. -/
def natDigits (fuel n : Nat) : List Char :=
  match fuel with
  | 0 => []
  | fuel + 1 =>
    if n < 10 then [Char.ofNat (48 + n)]
    else natDigits fuel (n / 10) ++ [Char.ofNat (48 + n % 10)]

/-- Python `str` of an integer. -/
def intRepr (n : Int) : String :=
  if n < 0 then String.mk ('-' :: natDigits (n.natAbs + 1) n.natAbs)
  else String.mk (natDigits (n.natAbs + 1) n.natAbs)

/-- JSON string escaping as `json.dumps` performs it. -/
def escChar (c : Char) : List Char :=
  if c = '"' then ['\\', '"']
  else if c = '\\' then ['\\', '\\']
  else if c = '\n' then ['\\', 'n']
  else if c = '\t' then ['\\', 't']
  else if c = '\r' then ['\\', 'r']
  else [c]

/-- Serialization of a string as `json.dumps` renders it. -/
def jStringDump (s : String) : String :=
  String.mk ('"' :: (s.data.map escChar).flatten ++ ['"'])

/-- Indentation of `2 * lvl` spaces. -/
def jIndent (lvl : Nat) : String :=
  String.mk (List.replicate (2 * lvl) ' ')

mutual

/-- Model of Python `json.dumps(v, indent=2)` at nesting level `lvl`;
structurally recursive on a fuel argument. -/
def jDump (fuel lvl : Nat) (v : Json) : String :=
  match fuel with
  | 0 => ""
  | fuel + 1 =>
    match v with
    | .null => "null"
    | .bool true => "true"
    | .bool false => "false"
    | .num n => intRepr n
    | .str s => jStringDump s
    | .arr [] => "[]"
    | .arr (x :: xs) =>
      "[\n" ++ jIndent (lvl + 1) ++ jDumpElems fuel (lvl + 1) x xs ++ "\n" ++
        jIndent lvl ++ "]"
    | .obj [] => "\x7b\x7d"
    | .obj (kv :: kvs) =>
      "\x7b\n" ++ jIndent (lvl + 1) ++ jDumpMembers fuel (lvl + 1) kv kvs ++ "\n" ++
        jIndent lvl ++ "\x7d"

def jDumpElems (fuel lvl : Nat) (x : Json) (xs : List Json) : String :=
  match fuel with
  | 0 => ""
  | fuel + 1 =>
    match xs with
    | [] => jDump fuel lvl x
    | y :: ys => jDump fuel lvl x ++ ",\n" ++ jIndent lvl ++ jDumpElems fuel lvl y ys

def jDumpMembers (fuel lvl : Nat) (kv : String × Json) (kvs : List (String × Json)) :
    String :=
  match fuel with
  | 0 => ""
  | fuel + 1 =>
    match kvs with
    | [] => jStringDump kv.1 ++ ": " ++ jDump fuel lvl kv.2
    | kv2 :: rest =>
      jStringDump kv.1 ++ ": " ++ jDump fuel lvl kv.2 ++ ",\n" ++ jIndent lvl ++
        jDumpMembers fuel lvl kv2 rest

end

/-- Model of Python `json.dumps(v, indent=2)` (nesting depth up to 1000,
ample for everything the nodes produce). -/
def json_dumps (v : Json) : String := jDump 1000 0 v

/-! ## Argument Map Builder (`claude_code_arguments.py`) -/

/-- Python `.copy()`: dicts and lists have it; strings, numbers, booleans and
`None` raise `AttributeError`. -/
def jCopy : Json → Except PyErr Json
  | .obj kvs => .ok (.obj kvs)
  | .arr xs => .ok (.arr xs)
  | _ => .error (.attributeError "object has no attribute copy")

/-- Python `result.update(kvs)`: only dicts have `update`; everything else
raises `AttributeError`. -/
def jUpdateVal : Json → List (String × Json) → Except PyErr Json
  | .obj kvs, upd => .ok (.obj (jUpdate kvs upd))
  | _, _ => .error (.attributeError "object has no attribute update")

/-- Python `result[k] = v` with a string key: dicts assign; lists raise
`TypeError`; other values raise `TypeError` as well. -/
def jSetItem : Json → String → Json → Except PyErr Json
  | .obj kvs, k, v => .ok (.obj (jSet kvs k v))
  | .arr _, _, _ => .error (.typeError "list indices must be integers")
  | _, _, _ => .error (.typeError "object does not support item assignment")

/-- Model of `ClaudeCodeArguments.build_arguments` after the base map has been
parsed: copy it, apply the selected mode, serialize. -/
def buildFromBase (base_dict : Json) (input_mode json_arguments key value
    merge_arguments : String) : Except PyErr (String × String) :=
  match jCopy base_dict with
  | .error e => .error e
  | .ok result =>
    let step : Except PyErr Json :=
      if input_mode = "json" then
        match json_loads json_arguments with
        | .ok (.obj kvs) => jUpdateVal result kvs
        | .ok _ => .ok result
        | .error e => jSetItem result "_error" (.str ("Invalid JSON: " ++ e))
      else if input_mode = "key_value" then
        if key ≠ "" then jSetItem result key (.str value) else .ok result
      else if input_mode = "merge" then
        match (if merge_arguments ≠ "" then json_loads merge_arguments
               else .ok (.obj [])) with
        | .ok (.obj kvs) => jUpdateVal result kvs
        | _ => .ok result
      else .ok result
    match step with
    | .error e => .error e
    | .ok result2 => .ok (json_dumps result2, json_dumps result2)

/-- Model of `ClaudeCodeArguments.build_arguments`: parse the base map (a JSON decode
error is caught and treated as an empty map), then build. -/
def build_arguments (input_mode json_arguments key value base_arguments
    merge_arguments : String) : Except PyErr (String × String) :=
  let base_dict : Json :=
    if base_arguments ≠ "" then
      match json_loads base_arguments with
      | .ok v => v
      | .error _ => .obj []
    else .obj []
  buildFromBase base_dict input_mode json_arguments key value merge_arguments

/-! ## Scraper item-count heuristic (`claude_reddit_scraper.py`, lines 358-367) -/

/-- Python `len`: lists, strings and dicts have a length; numbers, booleans
and `None` raise `TypeError`. -/
def pyLen : Json → Except PyErr Nat
  | .arr xs => .ok xs.length
  | .str s => .ok s.data.length
  | .obj kvs => .ok kvs.length
  | _ => .error (.typeError "object has no len")

/-- The item-count heuristic of `read_scraped_data`: list length, else the
length of a `posts` or `data` field, else `1` for other dicts, else the
initial count `0`. -/
def countItems : Json → Except PyErr Nat
  | .arr xs => .ok xs.length
  | .obj kvs =>
    match jLookup kvs "posts" with
    | some v => pyLen v
    | none =>
      match jLookup kvs "data" with
      | some v => pyLen v
      | none => .ok 1
  | _ => .ok 0

theorem buildFromBase_obj_isOk (kvs0 : List (String × Json))
    (input_mode json_arguments key value merge_arguments : String) :
    (buildFromBase (.obj kvs0) input_mode json_arguments key value
      merge_arguments).isOk = true := by
  unfold buildFromBase
  simp only [jCopy]
  by_cases h1 : input_mode = "json"
  · rcases hja : json_loads json_arguments with e | v
    · simp [Except.isOk, Except.toBool, h1, hja, jSetItem]
    · cases v <;> simp [Except.isOk, Except.toBool, h1, hja, jUpdateVal]
  · by_cases h2 : input_mode = "key_value"
    · by_cases hk : key = ""
      · simp [Except.isOk, Except.toBool, h1, h2, hk]
      · simp [Except.isOk, Except.toBool, h1, h2, hk, jSetItem]
    · by_cases h3 : input_mode = "merge"
      · by_cases hm : merge_arguments = ""
        · simp [Except.isOk, Except.toBool, h1, h2, h3, hm, jUpdateVal]
        · rcases hma : json_loads merge_arguments with e | v
          · simp [Except.isOk, Except.toBool, h1, h2, h3, hm, hma]
          · cases v <;> simp [Except.isOk, Except.toBool, h1, h2, h3, hm, hma, jUpdateVal]
      · simp [Except.isOk, Except.toBool, h1, h2, h3]

/-- C5 counterexample: `"[1, 2]"` is valid JSON but not an object; in `json`
mode `result_dict.update(...)` is then called on a list and raises an
uncaught `AttributeError`: the node does not return normally and the base is
not treated as an empty map. -/
theorem build_arguments_raises_on_array_base :
    (json_loads "[1, 2]").isOk = true ∧
    build_arguments "json" "\x7b\x7d" "" "" "[1, 2]" "\x7b\x7d" =
      .error (.attributeError "object has no attribute update") :=
  ⟨rfl, rfl⟩

/-- C5 (amended): `build_arguments` returns normally whenever the base map
string is empty, fails to parse (it is then treated as an empty map), or
parses to a JSON object; a base that parses to a non-object value is kept raw
and can make the call raise. -/
theorem build_arguments_no_raise (input_mode json_arguments key value
    base_arguments merge_arguments : String)
    (hbase : base_arguments = "" ∨ (json_loads base_arguments).isOk = false ∨
      ∃ kvs, json_loads base_arguments = .ok (.obj kvs)) :
    (build_arguments input_mode json_arguments key value base_arguments
      merge_arguments).isOk = true ∧
    ((json_loads base_arguments).isOk = false →
      build_arguments input_mode json_arguments key value base_arguments
        merge_arguments =
      buildFromBase (.obj []) input_mode json_arguments key value
        merge_arguments) := by
  constructor
  · unfold build_arguments
    rcases hbase with rfl | hf | ⟨kvs, hk⟩
    · simpa [Except.isOk, Except.toBool] using buildFromBase_obj_isOk [] input_mode json_arguments key value
        merge_arguments
    · by_cases hb : base_arguments = ""
      · subst hb
        simpa [Except.isOk, Except.toBool] using buildFromBase_obj_isOk [] input_mode json_arguments key value
          merge_arguments
      · rcases hjl : json_loads base_arguments with e | v
        · simpa [Except.isOk, Except.toBool, hb, hjl] using buildFromBase_obj_isOk [] input_mode json_arguments
            key value merge_arguments
        · rw [hjl] at hf
          simp [Except.isOk, Except.toBool] at hf
    · by_cases hb : base_arguments = ""
      · subst hb
        simpa [Except.isOk, Except.toBool] using buildFromBase_obj_isOk [] input_mode json_arguments key value
          merge_arguments
      · simpa [Except.isOk, Except.toBool, hb, hk] using buildFromBase_obj_isOk kvs input_mode json_arguments
          key value merge_arguments
  · intro hf
    unfold build_arguments
    by_cases hb : base_arguments = ""
    · simp [Except.isOk, Except.toBool, hb]
    · rcases hjl : json_loads base_arguments with e | v
      · simp [Except.isOk, Except.toBool, hb, hjl]
      · rw [hjl] at hf
        simp [Except.isOk, Except.toBool] at hf

theorem jLookup_jSet (kvs : List (String × Json)) (k k2 : String) (v : Json) :
    jLookup (jSet kvs k v) k2 = if k2 = k then some v else jLookup kvs k2 := by
  induction kvs with
  | nil =>
    by_cases h : k2 = k
    · subst h; simp [jSet, jLookup]
    · have h2 : ¬ k = k2 := fun e => h e.symm
      simp [jSet, jLookup, h, h2]
  | cons kv rest ih =>
    obtain ⟨k1, v1⟩ := kv
    by_cases h1 : k1 = k
    · subst h1
      by_cases h2 : k2 = k1
      · subst h2; simp [jSet, jLookup]
      · have h2s : ¬ k1 = k2 := fun e => h2 e.symm
        simp [jSet, jLookup, h2, h2s]
    · by_cases h2 : k1 = k2
      · have hk2k : ¬ k2 = k := fun e => h1 (h2.trans e)
        simp [jSet, jLookup, h1, h2, hk2k]
      · simp [jSet, jLookup, h1, h2, ih]

/-- C8: in `json` mode the parsed object is overlaid onto the base map (base
keys first, overlaid keys appended), and the serialization is Python's
`json.dumps(..., indent=2)`; with malformed JSON input a synthetic `_error`
entry is added while every base key stays present. -/
theorem build_arguments_json_mode (ja0 base0 key0 value0 ma0 : String)
    (kvs : List (String × Json)) (e : String)
    (hja : json_loads ja0 = .error e) (hbase : json_loads base0 = .ok (.obj kvs))
    (hbne : base0 ≠ "") :
    (build_arguments "json" "\x7b\"A\": \"1\"\x7d" "" "" "\x7b\"B\": \"2\"\x7d"
        "\x7b\x7d" =
      .ok ("\x7b\n  \"B\": \"2\",\n  \"A\": \"1\"\n\x7d",
           "\x7b\n  \"B\": \"2\",\n  \"A\": \"1\"\n\x7d")) ∧
    (build_arguments "json" ja0 key0 value0 base0 ma0 =
      .ok (json_dumps (.obj (jSet kvs "_error" (.str ("Invalid JSON: " ++ e)))),
           json_dumps (.obj (jSet kvs "_error" (.str ("Invalid JSON: " ++ e))))) ∧
      (jLookup (jSet kvs "_error" (.str ("Invalid JSON: " ++ e))) "_error").isSome
        = true ∧
      ∀ k, (jLookup kvs k).isSome = true →
        (jLookup (jSet kvs "_error" (.str ("Invalid JSON: " ++ e))) k).isSome
          = true) := by
  refine ⟨rfl, ?_, ?_, ?_⟩
  · unfold build_arguments buildFromBase
    simp [hbne, hbase, hja, jCopy, jSetItem]
  · rw [jLookup_jSet, if_pos rfl]
    rfl
  · intro k hk
    rw [jLookup_jSet]
    by_cases h : k = "_error"
    · rw [if_pos h]; rfl
    · rw [if_neg h]; exact hk

/-- C9: the scraper's item-count heuristic: lists count their length, a dict
counts the length of its `posts` field, else of its `data` field, else `1`;
with the three concrete shapes from the specification parsed by the JSON
model. -/
theorem read_scraped_data_count (kvs : List (String × Json)) (v : Json)
    (hp : jLookup kvs "posts" = none) (hd : jLookup kvs "data" = some v) :
    (∀ xs : List Json, countItems (.arr xs) = .ok xs.length) ∧
    (∀ kvs2 w, jLookup kvs2 "posts" = some w → countItems (.obj kvs2) = pyLen w) ∧
    countItems (.obj kvs) = pyLen v ∧
    (∀ kvs2, jLookup kvs2 "posts" = none → jLookup kvs2 "data" = none →
      countItems (.obj kvs2) = .ok 1) ∧
    (json_loads "\x7b\"posts\": [1, 2, 3]\x7d").map countItems = .ok (.ok 3) ∧
    (json_loads "[1, 2]").map countItems = .ok (.ok 2) ∧
    (json_loads "\x7b\"foo\": 1\x7d").map countItems = .ok (.ok 1) := by
  refine ⟨fun xs => rfl, ?_, ?_, ?_, rfl, rfl, rfl⟩
  · intro kvs2 w hw
    simp only [countItems]
    rw [hw]
  · simp only [countItems]
    rw [hp, hd]
  · intro kvs2 h1 h2
    simp only [countItems]
    rw [h1, h2]

/-! ## Execute node (`claude_code_execute.py`) -/

/-- Python `repr` of a parsed JSON value (fuel-bounded for nesting). -/
def pyReprF : Nat → Json → String
  | 0, _ => ""
  | fuel + 1, v =>
    match v with
    | .null => "None"
    | .bool b => pyBoolStr b
    | .num n => intRepr n
    | .str s => "\x27" ++ s ++ "\x27"
    | .arr xs =>
      "[" ++ String.mk (List.intercalate (", ".data)
        ((xs.map (pyReprF fuel)).map String.data)) ++ "]"
    | .obj kvs =>
      "\x7b" ++ String.mk (List.intercalate (", ".data)
        ((kvs.map (fun kv => "\x27" ++ kv.1 ++ "\x27: " ++ pyReprF fuel kv.2)).map
          String.data)) ++ "\x7d"

/-- Python `str` of a parsed JSON value. -/
def pyStrOf (v : Json) : String :=
  match v with
  | .str s => s
  | .num n => intRepr n
  | .bool b => pyBoolStr b
  | .null => "None"
  | v => pyReprF 100 v

/-- Model of `ClaudeCodeExecute.replace_arguments`: substitute `${KEY}` placeholders;
a JSON decode error is caught and ignored, but a JSON value without `.items()`
(a non-object) raises `AttributeError`. -/
def replace_arguments (text arguments : String) : Except PyErr String :=
  match (if arguments ≠ "" then json_loads arguments else .ok (.obj [])) with
  | .error _ => .ok text
  | .ok (.obj kvs) =>
    .ok (kvs.foldl (fun t kv =>
      pyReplace t ("$\x7b" ++ kv.1 ++ "\x7d") (pyStrOf kv.2)) text)
  | .ok _ => .error (.attributeError "object has no attribute items")

/-- The result of `subprocess.run`. -/
structure SubprocessResult where
  returncode : Int
  stdout : String
  stderr : String

/-- Environment oracle for one `execute` invocation: wall clock, randomness,
filesystem and subprocess outcomes. -/
structure ExecEnv where
  cwd : String
  year : Nat
  month : Nat
  day : Nat
  hour : Nat
  minute : Nat
  second : Nat
  uuidStr : String
  startIso : String
  durationSec : Int
  prevExists : Bool
  loadedCommand : Option String
  runResult : Except String SubprocessResult
  persistOk : Except String Unit

/-- Two-digit zero-padded decimal, as `strftime` renders month, day, hour,
minute and second. -/
def pad2 (n : Nat) : String :=
  String.mk [Char.ofNat (48 + n / 10 % 10), Char.ofNat (48 + n % 10)]

/-- Four-digit zero-padded decimal, as `strftime` renders `%Y` for years up
to 9999. -/
def pad4 (n : Nat) : String :=
  String.mk [Char.ofNat (48 + n / 1000 % 10), Char.ofNat (48 + n / 100 % 10),
    Char.ofNat (48 + n / 10 % 10), Char.ofNat (48 + n % 10)]

/-- Rendering of `datetime.now().strftime("%Y%m%d_%H%M%S")`. -/
def strftimeFolder (env : ExecEnv) : String :=
  pad4 env.year ++ pad2 env.month ++ pad2 env.day ++ "_" ++
    pad2 env.hour ++ pad2 env.minute ++ pad2 env.second

/-- Model of `self.output_base_dir = os.path.join(os.getcwd(), "claude_code_outputs")`. -/
def output_base_dir (env : ExecEnv) : String :=
  env.cwd ++ "/" ++ "claude_code_outputs"

/-- Model of `ClaudeCodeExecute.generate_output_folder`. -/
def generate_output_folder (env : ExecEnv) : String × String :=
  let timestamp := strftimeFolder env
  let unique_id := String.mk (env.uuidStr.data.take 8)
  let folder_name := "output_" ++ timestamp ++ "_" ++ unique_id
  (folder_name, output_base_dir env ++ "/" ++ folder_name)

/-- Model of `ClaudeCodeExecute.build_prompt`. -/
def build_prompt (env : ExecEnv) (command memory output_folder
    previous_output : String) : String :=
  pyConcat
    ((if memory ≠ "" then ["# Context/Memory\n", memory, "\n\n"] else []) ++
     (if previous_output ≠ "" ∧ env.prevExists then
        ["# Previous Output\n",
         "Previous execution created files in: " ++
           (output_base_dir env ++ "/" ++ previous_output),
         "Read and understand these files as context.\n\n"]
      else []) ++
     ["# Command\n", command, "\n\n", "# Output Instructions\n",
      "Create all output files in: " ++ output_folder,
      "\nDo not create files elsewhere."])

/-- Model of `ClaudeCodeExecute.setup_mcps_from_config`. -/
def setup_mcps_from_config (mcp_config : String) : List String :=
  if mcp_config = "" ∨ pyStrip mcp_config = "" then []
  else if ("enabled:".data).isPrefixOf mcp_config.data then []
  else if ("disabled:".data).isPrefixOf mcp_config.data then
    ["MCP \x27" ++ String.mk (mcp_config.data.drop 9) ++ "\x27 was disabled"]
  else if containsSub "error".data (pyLower mcp_config).data then
    ["MCP configuration error: " ++ mcp_config]
  else []

/-- The residual `tools` string after line 250 (`tools = tools_part`),
used by the metadata field `tools_used`. -/
def toolsAfterSplit (tools : String) : String :=
  if containsSub markerS.data tools.data then
    match splitOnSub markerS.data tools.data with
    | a :: _ => String.mk a
    | [] => tools
  else tools

/-- The command line assembled for the external `claude` process. -/
def buildCmdParts (model : String) (max_turns : Nat) (tool_list : List String)
    (skip_permissions : Bool) : List String :=
  ["claude", "-p", "--max-turns", intRepr max_turns] ++
  (if model ≠ "default" then ["--model", model] else []) ++
  ((tool_list.map (fun t => ["--allowedTools", t])).flatten) ++
  (if skip_permissions then ["--dangerously-skip-permissions"] else [])

/-- The metadata dict built on the success path (lines 287-301). -/
def execMetadata (env : ExecEnv) (model : String) (max_turns : Nat)
    (folder_name folder_path : String) (toolsAfter : String)
    (r : SubprocessResult) (memory arguments previous_output mcp_config : String)
    (mcp_setup_errors : List String) : Json :=
  .obj
    [("execution_time", .num env.durationSec),
     ("model", .str model),
     ("max_turns", .num max_turns),
     ("output_folder", .str folder_name),
     ("output_path", .str folder_path),
     ("timestamp", .str env.startIso),
     ("tools_used",
       .arr (if toolsAfter ≠ "" then
         (toolsAfter.data.splitOn ',').map (fun l => .str (String.mk l))
       else [])),
     ("exit_code", .num r.returncode),
     ("has_memory", .bool (memory ≠ "")),
     ("has_arguments", .bool (arguments ≠ "\x7b\x7d")),
     ("has_previous", .bool (previous_output ≠ "")),
     ("mcp_config_received", .bool (mcp_config ≠ "")),
     ("mcp_setup_errors", .arr (mcp_setup_errors.map .str))]

/-- The minimal metadata dict of the exception handler (lines 333-338). -/
def errMetadata (env : ExecEnv) (folder_name e : String) : Json :=
  .obj [("error", .str e), ("execution_time", .num 0),
    ("output_folder", .str folder_name), ("timestamp", .str env.startIso)]

/-- Result of one `execute` call: the three returned values plus the log of
files written into the session folder. -/
structure ExecOut where
  output : String
  response : String
  metadata : Json
  writes : List (String × String)

/-- Model of `ClaudeCodeExecute.execute`.  The `try` block of the source covers only
the subprocess run and the persistence step (modelled by the `runResult` and
`persistOk` oracles); prompt assembly and command-line assembly run before
it, so their exceptions propagate. -/
def resolveCommand (env : ExecEnv) (command_source command_file command : String) :
    String :=
  if command_source = "file" ∧ command_file ≠ "[Custom Command]" then
    match env.loadedCommand with
    | some c => if c ≠ "" then c else command
    | none => command
  else command

def execute (env : ExecEnv) (command_source command_file command model : String)
    (max_turns : Nat) (memory arguments tools previous_output mcp_config : String) :
    Except PyErr ExecOut :=
  match replace_arguments (resolveCommand env command_source command_file command)
      arguments with
  | .error e => .error e
  | .ok command2 =>
    match (if memory ≠ "" then replace_arguments memory arguments
           else .ok "") with
    | .error e => .error e
    | .ok memory2 =>
      let fp := generate_output_folder env
      let folder_name := fp.1
      let folder_path := fp.2
      let mcp_setup_errors :=
        if mcp_config ≠ "" then setup_mcps_from_config mcp_config else []
      let _prompt := build_prompt env command2 memory2 folder_path previous_output
      match parseToolsConfig tools with
      | .error e => .error e
      | .ok (tool_list, skip_permissions) =>
        let toolsAfter := toolsAfterSplit tools
        let _cmd_parts := buildCmdParts model max_turns tool_list skip_permissions
        match env.runResult with
        | .error e =>
          .ok ⟨folder_name, "Execution error: " ++ e,
            errMetadata env folder_name e, []⟩
        | .ok r =>
          let response :=
            if r.returncode = 0 then r.stdout else "Error: " ++ r.stderr
          let metadata := execMetadata env model max_turns folder_name folder_path
            toolsAfter r memory2 arguments previous_output mcp_config
            mcp_setup_errors
          match env.persistOk with
          | .error e =>
            .ok ⟨folder_name, "Execution error: " ++ e,
              errMetadata env folder_name e, []⟩
          | .ok _ =>
            .ok ⟨folder_name, response, metadata,
              [(folder_path ++ "/" ++ "_claude_code_metadata.json",
                json_dumps metadata)] ++
              (if r.stdout ≠ "" then
                [(folder_path ++ "/" ++ "_claude_raw_output.txt", r.stdout)]
               else []) ++
              (if r.stderr ≠ "" then
                [(folder_path ++ "/" ++ "_claude_raw_error.txt", r.stderr)]
               else [])⟩

theorem replace_arguments_ok {arguments : String}
    (harg : arguments = "" ∨ (json_loads arguments).isOk = false ∨
      ∃ kvs, json_loads arguments = .ok (.obj kvs)) (text : String) :
    ∃ y, replace_arguments text arguments = .ok y := by
  unfold replace_arguments
  by_cases ha : arguments = ""
  · subst ha
    exact ⟨_, rfl⟩
  · rcases harg with rfl | hf | ⟨kvs, hk⟩
    · exact absurd rfl ha
    · rcases hjl : json_loads arguments with e | v
      · refine ⟨text, ?_⟩
        rw [if_pos ha]
      · rw [hjl] at hf
        simp [Except.isOk, Except.toBool] at hf
    · refine ⟨List.foldl (fun t kv =>
        pyReplace t ("$\x7b" ++ kv.1 ++ "\x7d") (pyStrOf kv.2)) text kvs, ?_⟩
      rw [if_pos ha]
      simp only [hk]

/-- A concrete environment oracle. -/
def execEnv0 : ExecEnv where
  cwd := "/app"
  year := 2026
  month := 10
  day := 12
  hour := 1
  minute := 2
  second := 3
  uuidStr := "0123abcd-0000-4000-8000-000000000000"
  startIso := "2026-10-12T01:02:03"
  durationSec := 1
  prevExists := false
  loadedCommand := none
  runResult := .ok ⟨0, "out", ""⟩
  persistOk := .ok ()

/-- C2 counterexample: a tool-configuration string in which the
`|skip_permissions:` marker occurs twice makes the two-variable unpacking in
command-line assembly (step 5) raise an uncaught `ValueError`; `execute` does
raise to the caller, although the subprocess and persistence oracles would
both succeed. -/
theorem execute_raises_counterexample :
    execute execEnv0 "text" "[Custom Command]" "cmd" "default" 8 "" "\x7b\x7d"
        "A|skip_permissions:true|skip_permissions:true" "" "" =
      .error (.valueError "too many values to unpack") := rfl

/-- C2 (amended): with well-formed argument JSON and a tool-configuration
string whose marker split succeeds, `execute` never raises: exceptions of the
subprocess run and of metadata persistence are caught and converted into the
triple of the already-allocated folder name, an error-prefixed message, and
the minimal metadata object carrying the error text. -/
theorem execute_catches_run_and_persist (env : ExecEnv)
    (command_source command_file command model : String) (max_turns : Nat)
    (memory arguments tools previous_output mcp_config : String)
    (harg : arguments = "" ∨ (json_loads arguments).isOk = false ∨
      ∃ kvs, json_loads arguments = .ok (.obj kvs))
    (htools : (parseToolsConfig tools).isOk = true) :
    (execute env command_source command_file command model max_turns memory
      arguments tools previous_output mcp_config).isOk = true ∧
    (∀ e, env.runResult = .error e →
      execute env command_source command_file command model max_turns memory
        arguments tools previous_output mcp_config =
      .ok ⟨(generate_output_folder env).1, "Execution error: " ++ e,
        errMetadata env (generate_output_folder env).1 e, []⟩) ∧
    (∀ r e, env.runResult = .ok r → env.persistOk = .error e →
      execute env command_source command_file command model max_turns memory
        arguments tools previous_output mcp_config =
      .ok ⟨(generate_output_folder env).1, "Execution error: " ++ e,
        errMetadata env (generate_output_folder env).1 e, []⟩) := by
  obtain ⟨c2, hc2⟩ := replace_arguments_ok harg
    (resolveCommand env command_source command_file command)
  obtain ⟨m2, hm2⟩ : ∃ y, (if memory ≠ "" then replace_arguments memory arguments
      else .ok "") = .ok y := by
    by_cases hm : memory = ""
    · exact ⟨"", by rw [if_neg (fun h => h hm)]⟩
    · obtain ⟨y, hy⟩ := replace_arguments_ok harg memory
      exact ⟨y, by rw [if_pos hm, hy]⟩
  obtain ⟨tl, sk, hp⟩ : ∃ tl sk, parseToolsConfig tools = .ok (tl, sk) := by
    rcases hpt : parseToolsConfig tools with e | p
    · rw [hpt] at htools
      simp [Except.isOk, Except.toBool] at htools
    · obtain ⟨tl, sk⟩ := p
      exact ⟨tl, sk, rfl⟩
  unfold execute
  rw [hc2, hm2, hp]
  refine ⟨?_, ?_, ?_⟩
  · rcases hr : env.runResult with e | r
    · rfl
    · rcases hpo : env.persistOk with e | u
      · rfl
      · rfl
  · intro e he
    rw [he]
  · intro r e hr hpo
    rw [hr, hpo]

/-- C3: on a completed subprocess with successful persistence, the returned
response is the captured stdout when the exit code is 0, and the
`"Error: "`-prefixed stderr otherwise. -/
theorem execute_response_from_exit_code (env : ExecEnv)
    (command_source command_file command model : String) (max_turns : Nat)
    (memory arguments tools previous_output mcp_config : String)
    (harg : arguments = "" ∨ (json_loads arguments).isOk = false ∨
      ∃ kvs, json_loads arguments = .ok (.obj kvs))
    (htools : (parseToolsConfig tools).isOk = true)
    (r : SubprocessResult) (hrun : env.runResult = .ok r)
    (hpersist : env.persistOk = .ok ()) :
    ∃ out : ExecOut,
      execute env command_source command_file command model max_turns memory
        arguments tools previous_output mcp_config = .ok out ∧
      (r.returncode = 0 → out.response = r.stdout) ∧
      (r.returncode ≠ 0 → out.response = "Error: " ++ r.stderr) := by
  obtain ⟨c2, hc2⟩ := replace_arguments_ok harg
    (resolveCommand env command_source command_file command)
  obtain ⟨m2, hm2⟩ : ∃ y, (if memory ≠ "" then replace_arguments memory arguments
      else .ok "") = .ok y := by
    by_cases hm : memory = ""
    · exact ⟨"", by rw [if_neg (fun h => h hm)]⟩
    · obtain ⟨y, hy⟩ := replace_arguments_ok harg memory
      exact ⟨y, by rw [if_pos hm, hy]⟩
  obtain ⟨tl, sk, hp⟩ : ∃ tl sk, parseToolsConfig tools = .ok (tl, sk) := by
    rcases hpt : parseToolsConfig tools with e | p
    · rw [hpt] at htools
      simp [Except.isOk, Except.toBool] at htools
    · obtain ⟨tl, sk⟩ := p
      exact ⟨tl, sk, rfl⟩
  unfold execute
  rw [hc2, hm2, hp, hrun, hpersist]
  refine ⟨_, rfl, ?_, ?_⟩
  · intro h0
    show (if r.returncode = 0 then r.stdout else "Error: " ++ r.stderr) = r.stdout
    rw [if_pos h0]
  · intro h0
    show (if r.returncode = 0 then r.stdout else "Error: " ++ r.stderr) =
      "Error: " ++ r.stderr
    rw [if_neg h0]

theorem digitChar_isDigit (m : Nat) : (Char.ofNat (48 + m % 10)).isDigit = true := by
  have h : m % 10 < 10 := Nat.mod_lt _ (by norm_num)
  generalize m % 10 = k at h ⊢
  interval_cases k <;> decide

theorem pad2_all_digits (n : Nat) : (pad2 n).data.all Char.isDigit = true := by
  show ((Char.ofNat (48 + n / 10 % 10)).isDigit &&
    ((Char.ofNat (48 + n % 10)).isDigit && true)) = true
  rw [digitChar_isDigit, digitChar_isDigit]
  rfl

theorem pad4_all_digits (n : Nat) : (pad4 n).data.all Char.isDigit = true := by
  show ((Char.ofNat (48 + n / 1000 % 10)).isDigit &&
    ((Char.ofNat (48 + n / 100 % 10)).isDigit &&
      ((Char.ofNat (48 + n / 10 % 10)).isDigit &&
        ((Char.ofNat (48 + n % 10)).isDigit && true)))) = true
  rw [digitChar_isDigit, digitChar_isDigit, digitChar_isDigit, digitChar_isDigit]
  rfl

/-- Lowercase hexadecimal digit (the alphabet of a canonical `uuid4` string
apart from the dashes). -/
def isHexLowerDigit (c : Char) : Bool :=
  c.isDigit || ('a' ≤ c && c ≤ 'f')

/-- C6: every invocation allocates its session folder directly under the
fixed base output root with name `output_<YYYYMMDD_HHMMSS>_<8-hex-random>`,
and the execution metadata is written as `_claude_code_metadata.json` at the
root of that session folder. -/
theorem execute_session_layout (env : ExecEnv)
    (command_source command_file command model : String) (max_turns : Nat)
    (memory arguments tools previous_output mcp_config : String)
    (_hy1 : 1000 ≤ env.year) (_hy2 : env.year ≤ 9999)
    (hu1 : env.uuidStr.data.length = 36)
    (hu2 : (env.uuidStr.data.take 8).all isHexLowerDigit = true)
    (harg : arguments = "" ∨ (json_loads arguments).isOk = false ∨
      ∃ kvs, json_loads arguments = .ok (.obj kvs))
    (htools : (parseToolsConfig tools).isOk = true)
    (r : SubprocessResult) (hrun : env.runResult = .ok r)
    (hpersist : env.persistOk = .ok ()) :
    (generate_output_folder env).2 =
      output_base_dir env ++ "/" ++ (generate_output_folder env).1 ∧
    (generate_output_folder env).1 =
      "output_" ++ strftimeFolder env ++ "_" ++
        String.mk (env.uuidStr.data.take 8) ∧
    (∃ d t6, strftimeFolder env = d ++ "_" ++ t6 ∧
      d.data.length = 8 ∧ d.data.all Char.isDigit = true ∧
      t6.data.length = 6 ∧ t6.data.all Char.isDigit = true) ∧
    (String.mk (env.uuidStr.data.take 8)).data.length = 8 ∧
    (String.mk (env.uuidStr.data.take 8)).data.all isHexLowerDigit = true ∧
    ∃ out content,
      execute env command_source command_file command model max_turns memory
        arguments tools previous_output mcp_config = .ok out ∧
      out.output = (generate_output_folder env).1 ∧
      ((generate_output_folder env).2 ++ "/" ++ "_claude_code_metadata.json",
        content) ∈ out.writes := by
  refine ⟨rfl, rfl, ?_, ?_, hu2, ?_⟩
  · refine ⟨pad4 env.year ++ pad2 env.month ++ pad2 env.day,
      pad2 env.hour ++ pad2 env.minute ++ pad2 env.second, ?_, ?_, ?_, ?_, ?_⟩
    · refine data_inj ?_
      simp [strftimeFolder, String.data_append, List.append_assoc]
    · simp [String.data_append, pad4, pad2]
    · simp only [String.data_append]
      rw [List.all_append, List.all_append]
      rw [pad4_all_digits, pad2_all_digits, pad2_all_digits]
      rfl
    · simp [String.data_append, pad2]
    · simp only [String.data_append]
      rw [List.all_append, List.all_append]
      rw [pad2_all_digits, pad2_all_digits, pad2_all_digits]
      rfl
  · show (env.uuidStr.data.take 8).length = 8
    rw [List.length_take, hu1]
    decide
  · obtain ⟨c2, hc2⟩ := replace_arguments_ok harg
      (resolveCommand env command_source command_file command)
    obtain ⟨m2, hm2⟩ : ∃ y, (if memory ≠ "" then replace_arguments memory arguments
        else .ok "") = .ok y := by
      by_cases hm : memory = ""
      · exact ⟨"", by rw [if_neg (fun h => h hm)]⟩
      · obtain ⟨y, hy⟩ := replace_arguments_ok harg memory
        exact ⟨y, by rw [if_pos hm, hy]⟩
    obtain ⟨tl, sk, hp⟩ : ∃ tl sk, parseToolsConfig tools = .ok (tl, sk) := by
      rcases hpt : parseToolsConfig tools with e | p
      · rw [hpt] at htools
        simp [Except.isOk, Except.toBool] at htools
      · obtain ⟨tl, sk⟩ := p
        exact ⟨tl, sk, rfl⟩
    unfold execute
    rw [hc2, hm2, hp, hrun, hpersist]
    exact ⟨_, _, rfl, rfl, List.mem_cons_self _ _⟩

/-- Witness for C1 at a concrete instantiation with preset `"web"`. -/
theorem configure_tools_correct_witness :
    (((configure_tools "web" " Bash ," "WebSearch" true false true false true
          false true).2.1 =
        joinComma (configure_tools_list "web" " Bash ," "WebSearch" true false
          true false true false) ∧
      (configure_tools_list "web" " Bash ," "WebSearch" true false true false
          true false).toFinset =
        claimToolSet "web" " Bash ," "WebSearch" true false true false true
          false ∧
      (configure_tools_list "web" " Bash ," "WebSearch" true false true false
          true false).Sorted pyStrLe ∧
      (configure_tools_list "web" " Bash ," "WebSearch" true false true false
          true false).Nodup) ∧
    configure_tools "web" " Bash ," "WebSearch" true false true false true
        false true =
      configure_tools "web" " Bash ," "WebSearch" false true false true false
        true true) :=
  ⟨(configure_tools_correct "web" " Bash ," "WebSearch" true false true false
      true false true false true false true false true).1,
   (configure_tools_correct "web" " Bash ," "WebSearch" true false true false
      true false true false true false true false true).2 (by decide)⟩

/-- Witness for C4 at a concrete instantiation with preset `"minimal"`. -/
theorem tools_config_roundtrip_witness :
    parseToolsConfig
        (configure_tools "minimal" " Bash ," "Write" true true true true true
          false true).1 =
      .ok (configure_tools_list "minimal" " Bash ," "Write" true true true true
        true false, true) :=
  tools_config_roundtrip "minimal" " Bash ," "Write" true true true true true
    false true (by decide)

/-- Witness for C3 with a successful and a failing exit code exercised. -/
def execEnvRun (code : Int) : ExecEnv where
  cwd := "/app"
  year := 2026
  month := 10
  day := 12
  hour := 1
  minute := 2
  second := 3
  uuidStr := "0123abcd-0000-4000-8000-000000000000"
  startIso := "2026-10-12T01:02:03"
  durationSec := 1
  prevExists := false
  loadedCommand := none
  runResult := .ok ⟨code, "the stdout", "the stderr"⟩
  persistOk := .ok ()

theorem execute_response_from_exit_code_witness :
    ∃ out : ExecOut,
      execute (execEnvRun 0) "text" "[Custom Command]" "cmd" "default" 8 "" ""
        "Read|skip_permissions:False" "" "" = .ok out ∧
      ((0 : Int) = 0 → out.response = "the stdout") ∧
      ((0 : Int) ≠ 0 → out.response = "Error: " ++ "the stderr") :=
  execute_response_from_exit_code (execEnvRun 0) "text" "[Custom Command]"
    "cmd" "default" 8 "" "" "Read|skip_permissions:False" "" ""
    (Or.inl rfl) (by decide) ⟨0, "the stdout", "the stderr"⟩ rfl rfl

/-- Environment whose subprocess call raises. -/
def execEnvBoom : ExecEnv where
  cwd := "/app"
  year := 2026
  month := 10
  day := 12
  hour := 1
  minute := 2
  second := 3
  uuidStr := "0123abcd-0000-4000-8000-000000000000"
  startIso := "2026-10-12T01:02:03"
  durationSec := 1
  prevExists := false
  loadedCommand := none
  runResult := .error "boom"
  persistOk := .ok ()

/-- Witness for C2 (amended): a raised subprocess call is converted into the
error triple. -/
theorem execute_catches_run_and_persist_witness :
    (execute execEnvBoom "text" "[Custom Command]" "cmd" "default" 8 "" ""
      "Read|skip_permissions:False" "" "").isOk = true ∧
    execute execEnvBoom "text" "[Custom Command]" "cmd" "default" 8 "" ""
        "Read|skip_permissions:False" "" "" =
      .ok ⟨(generate_output_folder execEnvBoom).1, "Execution error: " ++ "boom",
        errMetadata execEnvBoom (generate_output_folder execEnvBoom).1 "boom",
        []⟩ :=
  ⟨(execute_catches_run_and_persist execEnvBoom "text" "[Custom Command]" "cmd"
      "default" 8 "" "" "Read|skip_permissions:False" "" "" (Or.inl rfl)
      (by decide)).1,
   (execute_catches_run_and_persist execEnvBoom "text" "[Custom Command]" "cmd"
      "default" 8 "" "" "Read|skip_permissions:False" "" "" (Or.inl rfl)
      (by decide)).2.1 "boom" rfl⟩

/-- Witness for C6 at the concrete environment `execEnvRun 0`. -/
theorem execute_session_layout_witness :
    (generate_output_folder (execEnvRun 0)).2 =
      output_base_dir (execEnvRun 0) ++ "/" ++
        (generate_output_folder (execEnvRun 0)).1 ∧
    (generate_output_folder (execEnvRun 0)).1 =
      "output_" ++ strftimeFolder (execEnvRun 0) ++ "_" ++
        String.mk ((execEnvRun 0).uuidStr.data.take 8) ∧
    (∃ d t6, strftimeFolder (execEnvRun 0) = d ++ "_" ++ t6 ∧
      d.data.length = 8 ∧ d.data.all Char.isDigit = true ∧
      t6.data.length = 6 ∧ t6.data.all Char.isDigit = true) ∧
    (String.mk ((execEnvRun 0).uuidStr.data.take 8)).data.length = 8 ∧
    (String.mk ((execEnvRun 0).uuidStr.data.take 8)).data.all isHexLowerDigit
      = true ∧
    ∃ out content,
      execute (execEnvRun 0) "text" "[Custom Command]" "cmd" "default" 8 "" ""
        "Read|skip_permissions:False" "" "" = .ok out ∧
      out.output = (generate_output_folder (execEnvRun 0)).1 ∧
      ((generate_output_folder (execEnvRun 0)).2 ++ "/" ++
        "_claude_code_metadata.json", content) ∈ out.writes :=
  execute_session_layout (execEnvRun 0) "text" "[Custom Command]" "cmd"
    "default" 8 "" "" "Read|skip_permissions:False" "" "" (by decide)
    (by decide) rfl (by decide) (Or.inl rfl) (by decide)
    ⟨0, "the stdout", "the stderr"⟩ rfl rfl

/-- Witness for C5 (amended) with an unparsable base map. -/
theorem build_arguments_no_raise_witness :
    (build_arguments "json" "\x7b\x7d" "" "" "notjson" "\x7b\x7d").isOk = true ∧
    ((json_loads "notjson").isOk = false →
      build_arguments "json" "\x7b\x7d" "" "" "notjson" "\x7b\x7d" =
        buildFromBase (.obj []) "json" "\x7b\x7d" "" "" "\x7b\x7d") :=
  build_arguments_no_raise "json" "\x7b\x7d" "" "" "notjson" "\x7b\x7d"
    (Or.inr (Or.inl (by decide)))

/-- Witness for C8 with the concrete malformed input `"oops"` and a one-key
base map. -/
theorem build_arguments_json_mode_witness :
    json_loads "oops" = .error "Expecting value" ∧
    json_loads "\x7b\"B\": \"2\"\x7d" = .ok (.obj [("B", .str "2")]) ∧
    ((build_arguments "json" "\x7b\"A\": \"1\"\x7d" "" "" "\x7b\"B\": \"2\"\x7d"
        "\x7b\x7d" =
      .ok ("\x7b\n  \"B\": \"2\",\n  \"A\": \"1\"\n\x7d",
           "\x7b\n  \"B\": \"2\",\n  \"A\": \"1\"\n\x7d")) ∧
    (build_arguments "json" "oops" "" "" "\x7b\"B\": \"2\"\x7d" "\x7b\x7d" =
      .ok (json_dumps (.obj (jSet [("B", .str "2")] "_error"
             (.str ("Invalid JSON: " ++ "Expecting value")))),
           json_dumps (.obj (jSet [("B", .str "2")] "_error"
             (.str ("Invalid JSON: " ++ "Expecting value"))))) ∧
      (jLookup (jSet [("B", .str "2")] "_error"
        (.str ("Invalid JSON: " ++ "Expecting value"))) "_error").isSome = true ∧
      ∀ k, (jLookup [("B", .str "2")] k).isSome = true →
        (jLookup (jSet [("B", .str "2")] "_error"
          (.str ("Invalid JSON: " ++ "Expecting value"))) k).isSome = true)) :=
  ⟨rfl, rfl,
   build_arguments_json_mode "oops" "\x7b\"B\": \"2\"\x7d" "" "" "\x7b\x7d"
     [("B", .str "2")] "Expecting value" rfl rfl (by decide)⟩

/-- Witness for C9 with a concrete `data`-shaped dict. -/
theorem read_scraped_data_count_witness :
    (∀ xs : List Json, countItems (.arr xs) = .ok xs.length) ∧
    (∀ kvs2 w, jLookup kvs2 "posts" = some w → countItems (.obj kvs2) = pyLen w) ∧
    countItems (.obj [("data", .arr [.num 1])]) = pyLen (.arr [.num 1]) ∧
    (∀ kvs2, jLookup kvs2 "posts" = none → jLookup kvs2 "data" = none →
      countItems (.obj kvs2) = .ok 1) ∧
    (json_loads "\x7b\"posts\": [1, 2, 3]\x7d").map countItems = .ok (.ok 3) ∧
    (json_loads "[1, 2]").map countItems = .ok (.ok 2) ∧
    (json_loads "\x7b\"foo\": 1\x7d").map countItems = .ok (.ok 1) :=
  read_scraped_data_count [("data", .arr [.num 1])] (.arr [.num 1]) rfl rfl

/-- Witness for C10 with sort key `"new"`. -/
theorem build_reddit_url_lstrip_set_witness :
    (build_reddit_url "subreddit" " /rust" "new" "day" =
        "https://reddit.com/r/" ++ pyLstripSet ['/', 'r'] (pyStrip " /rust") ++
          "/" ++ "new" ++ "/" ∧
    build_reddit_url "subreddit" "rust" "hot" "day" =
        "https://reddit.com/r/ust/hot/" ∧
    (∀ s : String, (pyStrip s).data.head? = some 'r' →
      pyLstripSet ['/', 'r'] (pyStrip s) ≠ pyStrip s) ∧
    build_reddit_url "user" " /rust" "new" "day" =
        "https://reddit.com/user/" ++
          pyLstripSet ['u', '/'] (pyLstripSet ['/', 'u'] (pyStrip " /rust"))) :=
  build_reddit_url_lstrip_set " /rust" "new" "day" (by decide) (by decide)

/-- Witness filesystem for C7 (amended): file content without trailing
whitespace. -/
def memFS7b : MemFS where
  memoriesDir := "memories"
  pathExists := fun p => decide (p = "f.txt")
  readFile := fun _ => .ok "F"

/-- Witness for C7 (amended) at concrete template, text and file content. -/
theorem build_memory_combined_exact_witness :
    (build_memory memFS7b "combined" "[Custom Memory]" "X" "f.txt" "T" "").1 =
        "T" ++ "\n\n## Additional Context\n\n" ++ "X" ++
          "\n\n## File Content\n\n" ++ "F" ∧
    containsInOrder5
        (build_memory memFS7b "combined" "[Custom Memory]" "X" "f.txt" "T" "").1.data
        "T".data "## Additional Context".data "X".data "## File Content".data
        "F".data ∧
    pyStrip (build_memory memFS7b "combined" "[Custom Memory]" "X" "f.txt" "T" "").1 =
      (build_memory memFS7b "combined" "[Custom Memory]" "X" "f.txt" "T" "").1 :=
  build_memory_combined_exact memFS7b "[Custom Memory]" "X" "f.txt" "T" "F"
    (by decide) (by decide) (by decide) (by decide) rfl (by decide)
    (by decide) (by decide)
